import Mathlib

/-!
# A shallow embedding of the Ardour 4.x tempo map core (libs/ardour/tempo.cc)

This file embeds the data model and the operations of the tempo map
(`TempoSection`, `MeterSection`, the metrics list, the recompute passes,
the solver entry points and the query API) as Lean definitions, and proves
or refutes the specification claims about them.

Modelling conventions:

* C++ `double` is modelled as `ℝ` (the source computes with IEEE doubles;
  all claims under study are about the exact mathematical content, so the
  real-number reading is used throughout).
* `framepos_t` / `framecnt_t` are modelled as `ℤ`.
* A C++ `double → framepos_t` conversion truncates toward zero; this is
  `truncR` below.  An explicit `floor (...)` in the source is `Int.floor`.
* Code paths that dereference a null `prev` pointer (the source would
  crash or be undefined) are modelled by returning `none`; every map-level
  query therefore returns an `Option`.
* `BBT_Time` fields are `uint32_t` in the source; they are modelled as `ℤ`
  (the paths exercised below never wrap around).
-/

noncomputable section

/-- `TempoSection::Type` from tempo.h: `Constant` or `Ramp`. -/
inductive TType where
  | Constant : TType
  | Ramp : TType
deriving DecidableEq

/-- `PositionLockStyle` from types.h: `AudioTime` or `MusicTime`. -/
inductive LockStyle where
  | AudioTime : LockStyle
  | MusicTime : LockStyle
deriving DecidableEq

/-- `Timecode::BBT_Time` (bars|beats|ticks); the default constructor gives
1|1|0.  `ticks_per_beat = 1920`. -/
structure BBT where
  bars : ℤ
  beats : ℤ
  ticks : ℤ
deriving DecidableEq

/-- `TempoSection`: a Tempo value (`bpm`, `noteType`) anchored at
(`pulse`, `frame`), with curve type, lock style, movability, activity,
the meter-lock flag and the fitted ramp constant `cFunc` (`_c_func`). -/
structure TempoSec where
  pulse : ℝ
  frame : ℤ
  bpm : ℝ
  noteType : ℝ
  ttype : TType
  lockStyle : LockStyle
  movable : Bool
  active : Bool
  lockedToMeter : Bool
  cFunc : ℝ

/-- `MeterSection`: a Meter value (`divPerBar`, `noteDivisor`) anchored at
(`pulse`, `frame`, `beat`, `bbt`) with a lock style. -/
structure MeterSec where
  pulse : ℝ
  frame : ℤ
  beat : ℝ
  bbt : BBT
  divPerBar : ℝ
  noteDivisor : ℝ
  lockStyle : LockStyle
  movable : Bool

/-- A metric section is either a tempo section or a meter section. -/
inductive Metric where
  | tempo (t : TempoSec) : Metric
  | meter (m : MeterSec) : Metric

/-- `TempoMap::Metrics`: the ordered list of metric sections. -/
abbrev Metrics := List Metric

/-- C library `expm1` (exact mathematical value). -/
def expm1 (x : ℝ) : ℝ := Real.exp x - 1

/-- C library `log1p` (exact mathematical value). -/
def log1p (x : ℝ) : ℝ := Real.log (1 + x)

/-- C++ `double → integer` conversion: truncation toward zero. -/
def truncR (x : ℝ) : ℤ := if 0 ≤ x then ⌊x⌋ else ⌈x⌉

namespace TempoSec

/-- `Tempo::pulses_per_minute() = beats_per_minute / note_type`. -/
def ppm (t : TempoSec) : ℝ := t.bpm / t.noteType

/-- Modelled from the spec (tempo.h is not in src/):
`frames_per_pulse (sr) = (60 · sr) / pulses_per_minute()`. -/
def frames_per_pulse (t : TempoSec) (sr : ℤ) : ℝ := 60 * (sr : ℝ) / t.ppm

/-- `TempoSection::minute_to_frame`: `floor (time·60·sr + 0.5)`. -/
def minute_to_frame (time : ℝ) (sr : ℤ) : ℤ := ⌊time * 60 * (sr : ℝ) + 1 / 2⌋

/-- `TempoSection::frame_to_minute`: `(frame / sr) / 60`. -/
def frame_to_minute (f : ℤ) (sr : ℤ) : ℝ := ((f : ℝ) / (sr : ℝ)) / 60

/-- `TempoSection::c_func (end_ppm, end_time) = log (end_ppm/ppm) / end_time`. -/
def c_func_of (t : TempoSec) (endPpm endTime : ℝ) : ℝ :=
  Real.log (endPpm / t.ppm) / endTime

/-- `TempoSection::pulse_tempo_at_time`: rate at local time. -/
def pulse_tempo_at_time (t : TempoSec) (time : ℝ) : ℝ :=
  Real.exp (t.cFunc * time) * t.ppm

/-- `TempoSection::time_at_pulse_tempo`: local time at rate. -/
def time_at_pulse_tempo (t : TempoSec) (pt : ℝ) : ℝ :=
  Real.log (pt / t.ppm) / t.cFunc

/-- `TempoSection::pulse_at_pulse_tempo`: pulse offset at rate. -/
def pulse_at_pulse_tempo (t : TempoSec) (pt : ℝ) : ℝ :=
  (pt - t.ppm) / t.cFunc

/-- `TempoSection::pulse_tempo_at_pulse`: rate at pulse offset. -/
def pulse_tempo_at_pulse (t : TempoSec) (p : ℝ) : ℝ :=
  p * t.cFunc + t.ppm

/-- `TempoSection::pulse_at_time`: pulse offset at local time
(`expm1 (c·time) · (ppm / c)`). -/
def pulse_at_time (t : TempoSec) (time : ℝ) : ℝ :=
  expm1 (t.cFunc * time) * (t.ppm / t.cFunc)

/-- `TempoSection::time_at_pulse`: local time at pulse offset
(`log1p (c·pulse / ppm) / c`). -/
def time_at_pulse (t : TempoSec) (p : ℝ) : ℝ :=
  log1p (t.cFunc * p / t.ppm) / t.cFunc

/-- The guard `_type == Constant || _c_func == 0.0` shared by all the
per-section conversion functions. -/
def constOrZero (t : TempoSec) : Prop := t.ttype = TType.Constant ∨ t.cFunc = 0

instance (t : TempoSec) : Decidable t.constOrZero := by
  unfold constOrZero; infer_instance

/-- `TempoSection::tempo_at_frame` (rate in ppm at a session frame). -/
def tempo_at_frame (t : TempoSec) (f : ℤ) (sr : ℤ) : ℝ :=
  if t.constOrZero then t.ppm
  else t.pulse_tempo_at_time (frame_to_minute (f - t.frame) sr)

/-- `TempoSection::frame_at_tempo` (session frame where rate `ppmGoal`
occurs; `p` is only used for constant tempos).  The constant branch is a
C++ `double → framepos_t` conversion, hence `truncR`. -/
def frame_at_tempo (t : TempoSec) (ppmGoal p : ℝ) (sr : ℤ) : ℤ :=
  if t.constOrZero then
    truncR ((p - t.pulse) * t.frames_per_pulse sr + (t.frame : ℝ))
  else
    minute_to_frame (t.time_at_pulse_tempo ppmGoal) sr + t.frame

/-- `TempoSection::tempo_at_pulse`. -/
def tempo_at_pulse (t : TempoSec) (p : ℝ) : ℝ :=
  if t.constOrZero then t.ppm else t.pulse_tempo_at_pulse (p - t.pulse)

/-- `TempoSection::pulse_at_tempo` (session pulse where rate `ppmGoal`
occurs; `f` is only used for constant tempos). -/
def pulse_at_tempo (t : TempoSec) (ppmGoal : ℝ) (f : ℤ) (sr : ℤ) : ℝ :=
  if t.constOrZero then ((f : ℝ) - t.frame) / t.frames_per_pulse sr + t.pulse
  else t.pulse_at_pulse_tempo ppmGoal + t.pulse

/-- `TempoSection::pulse_at_frame`. -/
def pulse_at_frame (t : TempoSec) (f : ℤ) (sr : ℤ) : ℝ :=
  if t.constOrZero then ((f : ℝ) - t.frame) / t.frames_per_pulse sr + t.pulse
  else t.pulse_at_time (frame_to_minute (f - t.frame) sr) + t.pulse

/-- `TempoSection::frame_at_pulse` (explicit `floor` in the constant
branch in the source). -/
def frame_at_pulse (t : TempoSec) (p : ℝ) (sr : ℤ) : ℤ :=
  if t.constOrZero then ⌊(p - t.pulse) * t.frames_per_pulse sr⌋ + t.frame
  else minute_to_frame (t.time_at_pulse (p - t.pulse)) sr + t.frame

/-- `TempoSection::compute_c_func_pulse`:
`ppm · expm1 (log (end_bpm / ppm)) / (end_pulse − pulse)`
(the `end_bpm` argument is a rate in whole pulses per minute). -/
def compute_c_func_pulse (t : TempoSec) (endPpm endPulse : ℝ) : ℝ :=
  t.ppm * expm1 (Real.log (endPpm / t.ppm)) / (endPulse - t.pulse)

/-- `TempoSection::compute_c_func_frame`:
`c_func (end_bpm, frame_to_minute (end_frame − frame))`. -/
def compute_c_func_frame (t : TempoSec) (endPpm : ℝ) (endFrame : ℤ) (sr : ℤ) : ℝ :=
  t.c_func_of endPpm (frame_to_minute (endFrame - t.frame) sr)

end TempoSec

/-- Frame of a metric section (`MetricSection::frame`). -/
def Metric.frame : Metric → ℤ
  | .tempo t => t.frame
  | .meter m => m.frame

/-- Pulse of a metric section (`MetricSection::pulse`). -/
def Metric.pulse : Metric → ℝ
  | .tempo t => t.pulse
  | .meter m => m.pulse

/-- `MetricSection::is_tempo`. -/
def Metric.isTempo : Metric → Bool
  | .tempo _ => true
  | .meter _ => false

/-- The loop of `TempoMap::tempo_section_at_frame_locked`: the last active
tempo section at or before `f` (the first active tempo becomes `prev`
unconditionally); `none` models the source aborting when no active tempo
section exists. -/
def tempo_section_at_frame_go (f : ℤ) : Metrics → Option TempoSec → Option TempoSec
  | [], prev => prev
  | .meter _ :: xs, prev => tempo_section_at_frame_go f xs prev
  | .tempo t :: xs, prev =>
    if t.active = true then
      match prev with
      | some p => if t.frame > f then some p else tempo_section_at_frame_go f xs (some t)
      | none => tempo_section_at_frame_go f xs (some t)
    else tempo_section_at_frame_go f xs prev

/-- `TempoMap::tempo_section_at_frame_locked`. -/
def tempo_section_at_frame_locked (ms : Metrics) (f : ℤ) : Option TempoSec :=
  tempo_section_at_frame_go f ms none

/-- The meter scan of `TempoMap::beat_at_frame_locked` (and of
`bbt_at_frame_locked`): returns `(prev_m, next_m)` where `next_m` is the
first meter after `prev_m` whose frame exceeds `f`. -/
def meters_around_frame_go (f : ℤ) : Metrics → Option MeterSec → Option MeterSec × Option MeterSec
  | [], prev => (prev, none)
  | .tempo _ :: xs, prev => meters_around_frame_go f xs prev
  | .meter m :: xs, prev =>
    match prev with
    | some p => if m.frame > f then (some p, some m) else meters_around_frame_go f xs (some m)
    | none => meters_around_frame_go f xs (some m)

/-- `TempoMap::beat_at_frame_locked`: beat through the covering tempo
section and the covering meter, clamped to the next meter's (possibly
faked) beat. -/
def beat_at_frame_locked (sr : ℤ) (ms : Metrics) (f : ℤ) : Option ℝ :=
  match tempo_section_at_frame_go f ms none, meters_around_frame_go f ms none with
  | some ts, (some pm, nextm) =>
    let beat := pm.beat + (ts.pulse_at_frame f sr - pm.pulse) * pm.noteDivisor
    some (match nextm with
          | some nm => if nm.beat < beat then nm.beat else beat
          | none => beat)
  | _, _ => none

/-- The meter scan shared by `TempoMap::frame_at_beat_locked`,
`meter_section_at_beat_locked` and `pulse_at_beat_locked`: the last meter
whose beat is at or before `b` (the first meter is taken
unconditionally). -/
def meter_section_at_beat_go (b : ℝ) : Metrics → Option MeterSec → Option MeterSec
  | [], prev => prev
  | .tempo _ :: xs, prev => meter_section_at_beat_go b xs prev
  | .meter m :: xs, prev =>
    match prev with
    | some p => if m.beat > b then some p else meter_section_at_beat_go b xs (some m)
    | none => meter_section_at_beat_go b xs (some m)

/-- `TempoMap::meter_section_at_beat_locked`. -/
def meter_section_at_beat_locked (ms : Metrics) (b : ℝ) : Option MeterSec :=
  meter_section_at_beat_go b ms none

/-- `TempoMap::pulse_at_beat_locked`:
`prev_m.pulse + (beat − prev_m.beat) / prev_m.note_divisor`. -/
def pulse_at_beat_locked (ms : Metrics) (b : ℝ) : Option ℝ :=
  (meter_section_at_beat_go b ms none).map
    (fun pm => pm.pulse + (b - pm.beat) / pm.noteDivisor)

/-- The tempo scan of `TempoMap::frame_at_beat_locked`.  Note: the source
loop has no `active` filter here, and the break condition translates the
candidate tempo's pulse to a beat through `pm`. -/
def frame_at_beat_tempo_go (b : ℝ) (pm : MeterSec) :
    Metrics → Option TempoSec → Option TempoSec
  | [], prev => prev
  | .meter _ :: xs, prev => frame_at_beat_tempo_go b pm xs prev
  | .tempo t :: xs, prev =>
    match prev with
    | some p =>
      if (t.pulse - pm.pulse) * pm.noteDivisor + pm.beat > b then some p
      else frame_at_beat_tempo_go b pm xs (some t)
    | none => frame_at_beat_tempo_go b pm xs (some t)

/-- `TempoMap::frame_at_beat_locked`. -/
def frame_at_beat_locked (sr : ℤ) (ms : Metrics) (b : ℝ) : Option ℤ :=
  match meter_section_at_beat_go b ms none with
  | none => none
  | some pm =>
    (frame_at_beat_tempo_go b pm ms none).map
      (fun pt => pt.frame_at_pulse ((b - pm.beat) / pm.noteDivisor + pm.pulse) sr)

/-- The loop of `TempoMap::pulse_at_frame_locked`; the trailing case
treats the final tempo section as constant irrespective of its type. -/
def pulse_at_frame_go (sr : ℤ) (f : ℤ) : Metrics → Option TempoSec → Option ℝ
  | [], prev =>
    prev.map (fun pt => ((f : ℝ) - pt.frame) / pt.frames_per_pulse sr + pt.pulse)
  | .meter _ :: xs, prev => pulse_at_frame_go sr f xs prev
  | .tempo t :: xs, prev =>
    if t.active = true then
      match prev with
      | some p => if t.frame > f then some (p.pulse_at_frame f sr)
                  else pulse_at_frame_go sr f xs (some t)
      | none => pulse_at_frame_go sr f xs (some t)
    else pulse_at_frame_go sr f xs prev

/-- `TempoMap::pulse_at_frame_locked`. -/
def pulse_at_frame_locked (sr : ℤ) (ms : Metrics) (f : ℤ) : Option ℝ :=
  pulse_at_frame_go sr f ms none

/-- The loop of `TempoMap::frame_at_pulse_locked`; the trailing case is
again the constant formula (with an explicit `floor` in the source). -/
def frame_at_pulse_go (sr : ℤ) (p : ℝ) : Metrics → Option TempoSec → Option ℤ
  | [], prev =>
    prev.map (fun pt => ⌊(p - pt.pulse) * pt.frames_per_pulse sr⌋ + pt.frame)
  | .meter _ :: xs, prev => frame_at_pulse_go sr p xs prev
  | .tempo t :: xs, prev =>
    if t.active = true then
      match prev with
      | some pt => if t.pulse > p then some (pt.frame_at_pulse p sr)
                   else frame_at_pulse_go sr p xs (some t)
      | none => frame_at_pulse_go sr p xs (some t)
    else frame_at_pulse_go sr p xs prev

/-- `TempoMap::frame_at_pulse_locked`. -/
def frame_at_pulse_locked (sr : ℤ) (ms : Metrics) (p : ℝ) : Option ℤ :=
  frame_at_pulse_go sr p ms none

/-- `TempoMap::quarter_note_at_frame`:
`pulse_at_frame_locked (_metrics, frame) * 4.0`. -/
def quarter_note_at_frame (sr : ℤ) (ms : Metrics) (f : ℤ) : Option ℝ :=
  (pulse_at_frame_locked sr ms f).map (fun p => p * 4)

/-- `TempoMap::framepos_plus_beats`:
`frame_at_beat_locked (beat_at_frame_locked (frame) + beats)`. -/
def framepos_plus_beats (sr : ℤ) (ms : Metrics) (f : ℤ) (beats : ℝ) : Option ℤ :=
  (beat_at_frame_locked sr ms f).bind (fun b => frame_at_beat_locked sr ms (b + beats))

/-- `TempoMap::bbt_at_frame_locked`. -/
def bbt_at_frame_locked (sr : ℤ) (ms : Metrics) (f : ℤ) : Option BBT :=
  if f < 0 then some ⟨1, 1, 0⟩
  else
    match tempo_section_at_frame_go f ms none, meters_around_frame_go f ms none with
    | some ts, (some pm, nextm) =>
      let beat0 := pm.beat + (ts.pulse_at_frame f sr - pm.pulse) * pm.noteDivisor
      let beat1 := if f < pm.frame then 0 else beat0
      let beat2 := match nextm with
                   | some nm => if nm.beat < beat1 then nm.beat else beat1
                   | none => beat1
      let beat := max 0 beat2
      let beatsInMs := beat - pm.beat
      let barsInMs : ℤ := ⌊beatsInMs / pm.divPerBar⌋
      let totalBars : ℤ := barsInMs + (pm.bbt.bars - 1)
      let remB := beatsInMs - (barsInMs : ℝ) * pm.divPerBar
      let remT := (remB - ⌊remB⌋) * 1920
      let ticks0 : ℤ := ⌊remT + 1 / 2⌋
      let beats0 : ℤ := ⌊remB⌋
      let bars1 : ℤ := totalBars + 1
      let beats1 : ℤ := beats0 + 1
      let fixT : ℤ × ℤ := if ticks0 ≥ 1920 then (beats1 + 1, ticks0 - 1920) else (beats1, ticks0)
      let fixB : ℤ × ℤ :=
        if (fixT.1 : ℝ) ≥ pm.divPerBar + 1 then (bars1 + 1, 1) else (bars1, fixT.1)
      some ⟨fixB.1, fixB.2, fixT.2⟩
    | _, _ => none

/-- `TempoMap::bbt_at_frame` (public entry): a negative frame returns
1|1|0 before the lock is even taken. -/
def bbt_at_frame (sr : ℤ) (ms : Metrics) (f : ℤ) : Option BBT :=
  if f < 0 then some ⟨1, 1, 0⟩
  else bbt_at_frame_locked sr ms f

/-- The `c` the pending predecessor `q` receives when the next active
tempo `t` is processed in `recompute_tempi`: fitted from `t`'s frame for
an AudioTime `t`, from its pulse for a MusicTime `t`. -/
def recompute_c (sr : ℤ) (q t : TempoSec) : ℝ :=
  match t.lockStyle with
  | .AudioTime => q.compute_c_func_frame t.ppm t.frame sr
  | .MusicTime => q.compute_c_func_pulse t.ppm t.pulse

/-- The update `recompute_tempi` applies to the next active tempo `t`
itself: its dependent coordinate is recomputed through the predecessor
`q` carrying its freshly fitted `c` (a meter-locked AudioTime tempo
keeps its pulse). -/
def recompute_step (sr : ℤ) (q t : TempoSec) : TempoSec :=
  match t.lockStyle with
  | .AudioTime =>
    if t.lockedToMeter then t
    else {t with pulse :=
      TempoSec.pulse_at_tempo {q with cFunc := recompute_c sr q t} t.ppm t.frame sr}
  | .MusicTime =>
    {t with frame :=
      TempoSec.frame_at_tempo {q with cFunc := recompute_c sr q t} t.ppm t.pulse sr}

/-- The forward pass of `TempoMap::recompute_tempi` once a first active
tempo (the pending section `p`) has been found.  The source mutates
`prev_t` (its `c`) and the current tempo (its dependent coordinate) in
place; here the pending predecessor is kept out of the output until its
`c` is final.  Returns the finalised pending section together with the
transformed tail; at the end of the list the pending (i.e. last active)
section receives `c = 0`. -/
def recompute_tempi_aux (sr : ℤ) (p : TempoSec) : Metrics → TempoSec × Metrics
  | [] => ({p with cFunc := 0}, [])
  | .meter m :: xs =>
    let r := recompute_tempi_aux sr p xs
    (r.1, .meter m :: r.2)
  | .tempo t :: xs =>
    if t.active = true then
      let r := recompute_tempi_aux sr (recompute_step sr p t) xs
      ({p with cFunc := recompute_c sr p t}, .tempo r.1 :: r.2)
    else
      let r := recompute_tempi_aux sr p xs
      (r.1, .tempo t :: r.2)

/-- The leading part of `TempoMap::recompute_tempi`: walk until the first
active tempo section; a non-movable first active tempo gets `pulse = 0`.
`none` models the unconditional `prev_t->set_c_func (0.0)` dereferencing
null when the list holds no active tempo section. -/
def recompute_tempi_start (sr : ℤ) : Metrics → Option Metrics
  | [] => none
  | .meter m :: xs => (recompute_tempi_start sr xs).map (fun r => .meter m :: r)
  | .tempo t :: xs =>
    if t.active = true then
      let t' := if t.movable then t else {t with pulse := 0}
      let r := recompute_tempi_aux sr t' xs
      some (.tempo r.1 :: r.2)
    else (recompute_tempi_start sr xs).map (fun r => .tempo t :: r)

/-- `TempoMap::recompute_tempi`. -/
def recompute_tempi (sr : ℤ) (ms : Metrics) : Option Metrics :=
  recompute_tempi_start sr ms

/-- The meter-locked tempo search of `TempoMap::recompute_meters` (and of
the meter solvers): the first tempo section that is meter-locked or
non-movable and sits at the meter's frame; returns its index. -/
def find_meter_locked_tempo_idx (mframe : ℤ) : Metrics → ℕ → Option ℕ
  | [], _ => none
  | .tempo t :: xs, i =>
    if (t.lockedToMeter = true ∨ t.movable = false) ∧ t.frame = mframe then some i
    else find_meter_locked_tempo_idx mframe xs (i + 1)
  | .meter _ :: xs, i => find_meter_locked_tempo_idx mframe xs (i + 1)

/-- One meter step of `TempoMap::recompute_meters` for an AudioTime
meter at index `i`: returns the updated list and the updated meter.
`pulse` and `b_bbt` keep their default values (`0.0` and 1|1|0) on the
branch the source leaves them uninitialised-by-assignment. -/
def recompute_meters_audio_vals (m : MeterSec) (pm : Option MeterSec) : ℝ × ℝ × BBT :=
  match pm with
  | some prev =>
    let beats := ((m.bbt.bars : ℝ) - (prev.bbt.bars : ℝ)) * prev.divPerBar
    if beats + prev.beat ≠ m.beat then
      (prev.pulse + beats / prev.noteDivisor, beats + prev.beat,
        ⟨truncR (beats / prev.divPerBar + (prev.bbt.bars : ℝ)), 1, 0⟩)
    else if m.movable then
      (prev.pulse + beats / prev.noteDivisor, m.beat, m.bbt)
    else (0, 0, ⟨1, 1, 0⟩)
  | none => (0, 0, ⟨1, 1, 0⟩)

def recompute_meters_audio (ms : Metrics) (i : ℕ) (m : MeterSec)
    (pm : Option MeterSec) : Metrics × MeterSec :=
  let v := recompute_meters_audio_vals m pm
  let m1 : MeterSec := {m with beat := v.2.1, bbt := v.2.2, pulse := v.1}
  let ms1 := ms.set i (.meter m1)
  let ms2 := match find_meter_locked_tempo_idx m.frame ms 0 with
    | some j =>
      match ms1[j]? with
      | some (.tempo tj) => ms1.set j (.tempo {tj with pulse := v.1})
      | _ => ms1
    | none => ms1
  (ms2, m1)

/-- One meter step of `TempoMap::recompute_meters` for a MusicTime meter
at index `i`; the meter's frame is re-derived through the tempo curve via
`frame_at_pulse_locked`. -/
def recompute_meters_music_vals (ms : Metrics) (m : MeterSec)
    (pm : Option MeterSec) : Option (ℝ × BBT × ℝ) :=
  match pm with
  | some prev =>
    let beats := ((m.bbt.bars : ℝ) - (prev.bbt.bars : ℝ)) * prev.divPerBar
    let bbt' : BBT :=
      if beats + prev.beat ≠ m.beat then
        ⟨truncR (beats / prev.divPerBar + (prev.bbt.bars : ℝ)), 1, 0⟩
      else m.bbt
    some (beats + prev.beat, bbt', beats / prev.noteDivisor + prev.pulse)
  | none =>
    match pulse_at_beat_locked ms m.beat with
    | none => none
    | some pulse => some (m.beat, m.bbt, pulse)

def recompute_meters_music (sr : ℤ) (ms : Metrics) (i : ℕ) (m : MeterSec)
    (pm : Option MeterSec) : Option (Metrics × MeterSec) :=
  match recompute_meters_music_vals ms m pm with
  | none => none
  | some v =>
    let m1 : MeterSec := {m with beat := v.1, bbt := v.2.1, pulse := v.2.2}
    let ms1 := ms.set i (.meter m1)
    match frame_at_pulse_locked sr ms1 v.2.2 with
    | none => none
    | some fr =>
      let m2 := {m1 with frame := fr}
      some (ms1.set i (.meter m2), m2)

/-- The index-walking loop of `TempoMap::recompute_meters` (fuel `n`
equals the list length; `List.set` preserves it). -/
def recompute_meters_go (sr : ℤ) : ℕ → ℕ → Metrics → Option MeterSec → Option Metrics
  | 0, _, ms, _ => some ms
  | n + 1, i, ms, pm =>
    match ms[i]? with
    | none => some ms
    | some (.tempo _) => recompute_meters_go sr n (i + 1) ms pm
    | some (.meter m) =>
      match m.lockStyle with
      | .AudioTime =>
        let r := recompute_meters_audio ms i m pm
        recompute_meters_go sr n (i + 1) r.1 (some r.2)
      | .MusicTime =>
        match recompute_meters_music sr ms i m pm with
        | none => none
        | some r => recompute_meters_go sr n (i + 1) r.1 (some r.2)

/-- `TempoMap::recompute_meters`. -/
def recompute_meters (sr : ℤ) (ms : Metrics) : Option Metrics :=
  recompute_meters_go sr ms.length 0 ms none

/-- `TempoMap::recompute_map` (the call sites under study pass the
default `end = -1`, so both passes always run). -/
def recompute_map (sr : ℤ) (ms : Metrics) : Option Metrics :=
  (recompute_tempi sr ms).bind (recompute_meters sr)

/-- The loop of `TempoMap::check_solved`, carrying the previous active
tempo and the previous meter.  `none` models the abort inside
`tempo_section_at_frame_locked` when an AudioTime meter is checked on a
list without active tempo sections. -/
def check_solved_go (sr : ℤ) (all : Metrics) :
    Metrics → Option TempoSec → Option MeterSec → Option Bool
  | [], _, _ => some true
  | .tempo t :: xs, pt, pm =>
    if t.active = true then
      match pt with
      | some p =>
        if t.frame ≤ p.frame ∨ t.pulse ≤ p.pulse then some false
        else if t.frame ≠ p.frame_at_tempo t.ppm t.pulse sr ∧ t.lockedToMeter = false then
          some false
        else if |p.cFunc| > 1000 then some false
        else check_solved_go sr all xs (some t) pm
      | none => check_solved_go sr all xs (some t) pm
    else check_solved_go sr all xs pt pm
  | .meter m :: xs, pt, pm =>
    if pm.isSome = true ∧ m.lockStyle = .AudioTime then
      match tempo_section_at_frame_go (m.frame - 1) all none with
      | none => none
      | some t =>
        let nascent := t.frame_at_pulse m.pulse sr
        if nascent > m.frame + 1 ∨ nascent < 0 then some false
        else check_solved_go sr all xs pt (some m)
    else check_solved_go sr all xs pt (some m)

/-- `TempoMap::check_solved`. -/
def check_solved (sr : ℤ) (ms : Metrics) : Option Bool :=
  check_solved_go sr ms ms none none

/-- The opening scan of `TempoMap::solve_map_frame` (tempo version): the
frame of the first non-movable meter, `0` when there is none. -/
def first_m_frame : Metrics → ℤ
  | [] => 0
  | .meter m :: xs => if m.movable = false then m.frame else first_m_frame xs
  | .tempo _ :: xs => first_m_frame xs

/-- The std::list sorts of the solver: stable sorts by frame
respectively pulse (the C++ comparators are strict `<`; a stable sort by
`≤` is the same function). -/
def sort_by_frame (ms : Metrics) : Metrics :=
  ms.mergeSort (fun a b => decide (a.frame ≤ b.frame))

/-- Stable sort of the metrics by pulse (`MetricSectionSorter`). -/
def sort_by_pulse (ms : Metrics) : Metrics :=
  ms.mergeSort (fun a b => decide (a.pulse ≤ b.pulse))

/-- The forward pass of `TempoMap::solve_map_frame` (tempo version).
`si` is the index of the section being moved (`none` when the section is
not an element of the list, which happens when `do_insert` overwrote the
non-movable section and the solver is handed the orphan copy); `pt` and
`sp` are the indices of `prev_t` and `section_prev`.  Pointer identity
`t == section` becomes index equality. -/
def solve_frame_pass (sr : ℤ) (si : Option ℕ) :
    ℕ → ℕ → Metrics → Option ℕ → Option ℕ → Metrics × Option ℕ
  | 0, _, ms, _, sp => (ms, sp)
  | n + 1, i, ms, pt, sp =>
    match ms[i]? with
    | none => (ms, sp)
    | some (.meter _) => solve_frame_pass sr si n (i + 1) ms pt sp
    | some (.tempo t) =>
      if t.active = true then
        match pt with
        | none => solve_frame_pass sr si n (i + 1) ms (some i) sp
        | some j =>
          if si = some i then
            if t.lockedToMeter then solve_frame_pass sr si n (i + 1) ms (some i) (some j)
            else solve_frame_pass sr si n (i + 1) ms (some j) (some j)
          else
            match ms[j]? with
            | some (.tempo p) =>
              match t.lockStyle with
              | .MusicTime =>
                let p' := {p with cFunc := p.compute_c_func_pulse t.ppm t.pulse}
                let t' := {t with frame := p'.frame_at_pulse t.pulse sr}
                solve_frame_pass sr si n (i + 1)
                  ((ms.set j (.tempo p')).set i (.tempo t')) (some i) sp
              | .AudioTime =>
                let p' := {p with cFunc := p.compute_c_func_frame t.ppm t.frame sr}
                let t' := if t.lockedToMeter then t
                          else {t with pulse := p'.pulse_at_frame t.frame sr}
                solve_frame_pass sr si n (i + 1)
                  ((ms.set j (.tempo p')).set i (.tempo t')) (some i) sp
            | _ => solve_frame_pass sr si n (i + 1) ms (some i) sp
      else solve_frame_pass sr si n (i + 1) ms pt sp

/-- `TempoMap::solve_map_frame` (tempo version).  Returns the
`check_solved` verdict together with the mutated list (the source
mutates `imaginary` in place and leaves it mutated even when it reports
failure); the early refusal of a movable tempo at or before the first
meter leaves the list untouched. -/
def solve_map_frame_tempo (sr : ℤ) (ms : Metrics) (sec : TempoSec) (si : Option ℕ)
    (f : ℤ) : Option (Bool × Metrics) :=
  if sec.movable = true ∧ f ≤ first_m_frame ms then some (false, ms)
  else
    let ms1 := match si with
      | some i => ms.set i (.tempo {sec with active := true, frame := f})
      | none => ms
    let pass := solve_frame_pass sr si ms1.length 0 ms1 none none
    let ms2 := pass.1
    let ms3 :=
      match pass.2 with
      | some j =>
        match ms2[j]? with
        | some (.tempo pj) =>
          let pj' := {pj with cFunc := pj.compute_c_func_frame sec.ppm f sr}
          let msA := ms2.set j (.tempo pj')
          if sec.lockedToMeter then msA
          else
            match si with
            | some i =>
              match msA[i]? with
              | some (.tempo ti) =>
                msA.set i (.tempo {ti with pulse := pj'.pulse_at_frame f sr})
              | _ => msA
            | none => msA
        | _ => ms2
      | none => ms2
    let ms4 := sort_by_frame ms3
    match recompute_tempi sr ms4 with
    | none => none
    | some ms5 => (check_solved sr ms5).map (fun b => (b, ms5))

/-- The forward pass of `TempoMap::solve_map_pulse`: a non-movable
active tempo is pinned at pulse 0 and becomes `prev_t` unconditionally;
the moved section only records `section_prev` (and does not advance
`prev_t`). -/
def solve_pulse_pass (sr : ℤ) (si : Option ℕ) :
    ℕ → ℕ → Metrics → Option ℕ → Option ℕ → Metrics × Option ℕ
  | 0, _, ms, _, sp => (ms, sp)
  | n + 1, i, ms, pt, sp =>
    match ms[i]? with
    | none => (ms, sp)
    | some (.meter _) => solve_pulse_pass sr si n (i + 1) ms pt sp
    | some (.tempo t) =>
      if t.active = true then
        if t.movable = false then
          solve_pulse_pass sr si n (i + 1) (ms.set i (.tempo {t with pulse := 0}))
            (some i) sp
        else
          match pt with
          | none => solve_pulse_pass sr si n (i + 1) ms (some i) sp
          | some j =>
            if si = some i then solve_pulse_pass sr si n (i + 1) ms pt (some j)
            else
              match ms[j]? with
              | some (.tempo p) =>
                match t.lockStyle with
                | .MusicTime =>
                  let p' := {p with cFunc := p.compute_c_func_pulse t.ppm t.pulse}
                  let t' := {t with frame := p'.frame_at_pulse t.pulse sr}
                  solve_pulse_pass sr si n (i + 1)
                    ((ms.set j (.tempo p')).set i (.tempo t')) (some i) sp
                | .AudioTime =>
                  let p' := {p with cFunc := p.compute_c_func_frame t.ppm t.frame sr}
                  let t' := if t.lockedToMeter then t
                            else {t with pulse := p'.pulse_at_frame t.frame sr}
                  solve_pulse_pass sr si n (i + 1)
                    ((ms.set j (.tempo p')).set i (.tempo t')) (some i) sp
              | _ => solve_pulse_pass sr si n (i + 1) ms (some i) sp
      else solve_pulse_pass sr si n (i + 1) ms pt sp

/-- `TempoMap::solve_map_pulse` (tempo version). -/
def solve_map_pulse_tempo (sr : ℤ) (ms : Metrics) (sec : TempoSec) (si : Option ℕ)
    (pulse : ℝ) : Option (Bool × Metrics) :=
  let ms1 := match si with
    | some i => ms.set i (.tempo {sec with pulse := pulse})
    | none => ms
  let pass := solve_pulse_pass sr si ms1.length 0 ms1 none none
  let ms2 := pass.1
  let ms3 :=
    match pass.2 with
    | some j =>
      match ms2[j]? with
      | some (.tempo pj) =>
        let pj' := {pj with cFunc := pj.compute_c_func_pulse sec.ppm pulse}
        let msA := ms2.set j (.tempo pj')
        match si with
        | some i =>
          match msA[i]? with
          | some (.tempo ti) =>
            msA.set i (.tempo {ti with frame := pj'.frame_at_pulse pulse sr})
          | _ => msA
        | none => msA
      | _ => ms2
    | none => ms2
  let ms4 := sort_by_pulse ms3
  match recompute_tempi sr ms4 with
  | none => none
  | some ms5 => (check_solved sr ms5).map (fun b => (b, ms5))

/-- `TempoMap::remove_tempo_locked`: erase the first movable tempo
section whose frame equals the argument's frame; `false` and no change
otherwise (a frame match on a non-movable section keeps scanning). -/
def remove_tempo_locked : Metrics → ℤ → Bool × Metrics
  | [], _ => (false, [])
  | .tempo t :: xs, f =>
    if t.frame = f ∧ t.movable = true then (true, xs)
    else
      let r := remove_tempo_locked xs f
      (r.1, .tempo t :: r.2)
  | .meter m :: xs, f =>
    let r := remove_tempo_locked xs f
    (r.1, .meter m :: r.2)

/-- The first loop of `TempoMap::remove_meter_locked` (AudioTime case):
erase the first meter-locked tempo at the meter's frame. -/
def erase_first_locked_tempo_at (f : ℤ) : Metrics → Metrics
  | [] => []
  | .tempo t :: xs =>
    if t.lockedToMeter = true ∧ t.frame = f then xs
    else .tempo t :: erase_first_locked_tempo_at f xs
  | .meter m :: xs => .meter m :: erase_first_locked_tempo_at f xs

/-- The second loop of `TempoMap::remove_meter_locked`: erase the first
movable meter at the given frame. -/
def remove_meter_second_loop : Metrics → ℤ → Bool × Metrics
  | [], _ => (false, [])
  | .meter m :: xs, f =>
    if m.frame = f ∧ m.movable = true then (true, xs)
    else
      let r := remove_meter_second_loop xs f
      (r.1, .meter m :: r.2)
  | .tempo t :: xs, f =>
    let r := remove_meter_second_loop xs f
    (r.1, .tempo t :: r.2)

/-- `TempoMap::remove_meter_locked`: for an AudioTime meter the
companion meter-locked tempo at the meter's frame is erased first,
before the meter itself is looked up at all. -/
def remove_meter_locked (ms : Metrics) (q : MeterSec) : Bool × Metrics :=
  let ms1 := if q.lockStyle = .AudioTime then erase_first_locked_tempo_at q.frame ms else ms
  remove_meter_second_loop ms1 q.frame

/-- The first loop of `TempoMap::do_insert` for a tempo insert: find the
first tempo at the same pulse (MusicTime insert) or frame (AudioTime
insert); a non-movable match has its Tempo data, type and lock style
overwritten (`need_add = false`), a movable match is erased.  (The meter
side of `do_insert` is exercised only by `add_meter`, which is not
modelled; the warning-only meter correction at the top of `do_insert`
has no effect on the list.) -/
def do_insert_tempo_replace (it : TempoSec) : Metrics → Metrics × Bool
  | [] => ([], true)
  | .tempo t :: xs =>
    if (it.lockStyle = .MusicTime ∧ t.pulse = it.pulse) ∨
       (¬(it.lockStyle = .MusicTime) ∧ t.frame = it.frame) then
      if t.movable = false then
        (.tempo {t with bpm := it.bpm, noteType := it.noteType,
                        lockStyle := .AudioTime, ttype := it.ttype} :: xs, false)
      else (xs, true)
    else
      let r := do_insert_tempo_replace it xs
      (.tempo t :: r.1, r.2)
  | .meter m :: xs =>
    let r := do_insert_tempo_replace it xs
    (.meter m :: r.1, r.2)

/-- The insertion-position loop of `TempoMap::do_insert` for a tempo
insert: the index of the first tempo strictly past the insert (by pulse
for MusicTime, by frame otherwise), or the end of the list. -/
def tempo_insert_idx (it : TempoSec) : Metrics → ℕ → ℕ
  | [], i => i
  | .tempo u :: xs, i =>
    if (it.lockStyle = .MusicTime ∧ u.pulse > it.pulse) ∨
       (¬(it.lockStyle = .MusicTime) ∧ u.frame > it.frame) then i
    else tempo_insert_idx it xs (i + 1)
  | .meter _ :: xs, i => tempo_insert_idx it xs (i + 1)

/-- The insertion phase of `TempoMap::add_tempo_locked` (`do_insert`):
the replacement scan followed, when nothing was overwritten, by the
positional insert; also returns the new section's index when it was
linked into the list. -/
def add_tempo_ins (t : TempoSec) (ms : Metrics) : Metrics × Option ℕ :=
  let r1 := do_insert_tempo_replace t ms
  if r1.2 then
    let idx := tempo_insert_idx t r1.1 0
    (r1.1.insertIdx idx (.tempo t), some idx)
  else (r1.1, none)

/-- `TempoMap::add_tempo_locked`.  The `TempoSection` value constructor
is not in src/ (tempo.h); modelled from the spec: a freshly constructed
section is movable, active and has `c = 0`.  When `do_insert` overwrote
the non-movable section the source passes the orphan `t` (never linked
into the list) to the solver, hence `si = none` there. -/
def add_tempo_locked (sr : ℤ) (ms : Metrics) (bpm noteType : ℝ) (pulse : ℝ)
    (frame : ℤ) (ttype : TType) (pls : LockStyle) (recompute : Bool)
    (lockedToMeter : Bool) : Option Metrics :=
  let t : TempoSec := ⟨pulse, frame, bpm, noteType, ttype, pls, true, true, lockedToMeter, 0⟩
  let ins := add_tempo_ins t ms
  if recompute = false then some ins.1
  else
    match (if pls = .AudioTime then solve_map_frame_tempo sr ins.1 t ins.2 t.frame
           else solve_map_pulse_tempo sr ins.1 t ins.2 t.pulse) with
    | none => none
    | some (solved, ms2) =>
      match recompute_meters sr ms2 with
      | none => none
      | some ms3 => if solved then some ms3 else recompute_map sr ms3

/-- The scan of `TempoMap::first_tempo`: the first active non-movable
tempo section (the source aborts when there is none). -/
def first_tempo_idx : Metrics → ℕ → Option ℕ
  | [], _ => none
  | .tempo t :: xs, i =>
    if t.active = true ∧ t.movable = false then some i else first_tempo_idx xs (i + 1)
  | .meter _ :: xs, i => first_tempo_idx xs (i + 1)

/-- `TempoMap::replace_tempo`.  The section to replace is identified by
its frame and meter-lock flag (the only data of `ts` the source reads).
When it is the first section, its type, pulse (0), frame (the caller's
frame!), lock style (AudioTime) and Tempo value are overwritten in place
and the map is recomputed; otherwise remove + add. -/
def replace_tempo (sr : ℤ) (ms : Metrics) (tsFrame : ℤ) (tsLockedToMeter : Bool)
    (bpm noteType : ℝ) (pulse : ℝ) (frame : ℤ) (ttype : TType) (pls : LockStyle) :
    Option Metrics :=
  match first_tempo_idx ms 0 with
  | none => none
  | some fi =>
    match ms[fi]? with
    | some (.tempo first) =>
      if tsFrame ≠ first.frame then
        let ms1 := (remove_tempo_locked ms tsFrame).2
        add_tempo_locked sr ms1 bpm noteType pulse frame ttype pls true tsLockedToMeter
      else
        let first' : TempoSec :=
          {first with ttype := ttype, pulse := 0, frame := frame
                    , lockStyle := .AudioTime, bpm := bpm, noteType := noteType}
        recompute_map sr (ms.set fi (.tempo first'))
    | _ => none

/-- The scan of `TempoMap::first_meter`: the first meter section of the
list (no activity or movability filter in the source). -/
def first_meter_idx : Metrics → ℕ → Option ℕ
  | [], _ => none
  | .meter _ :: _, i => some i
  | .tempo _ :: xs, i => first_meter_idx xs (i + 1)

/-- The non-movable branch of `TempoMap::replace_meter` (lines
1033–1047): overwrite the first meter's Meter value, pin it to
AudioTime / pulse 0 / beat 0 / 1|1|0 at the caller's frame, move the
first tempo to the same frame, and recompute.  (The movable branch
delegates to `remove_meter_locked` / `add_meter_locked` and is not
modelled; no claim exercises it.) -/
def replace_meter_first (sr : ℤ) (ms : Metrics) (divPerBar noteDivisor : ℝ)
    (frame : ℤ) : Option Metrics :=
  match first_meter_idx ms 0, first_tempo_idx ms 0 with
  | some mi, some ti =>
    match ms[mi]?, ms[ti]? with
    | some (.meter fm), some (.tempo ft) =>
      let fm' : MeterSec :=
        {fm with divPerBar := divPerBar, noteDivisor := noteDivisor
               , lockStyle := .AudioTime, pulse := 0, frame := frame
               , beat := 0, bbt := ⟨1, 1, 0⟩}
      let ft' : TempoSec := {ft with frame := frame, pulse := 0, lockStyle := .AudioTime}
      recompute_map sr ((ms.set mi (.meter fm')).set ti (.tempo ft'))
    | _, _ => none
  | _, _ => none

/-- The active tempo sections of a metrics list, in order. -/
def active_tempos : Metrics → List TempoSec
  | [] => []
  | .tempo t :: xs => if t.active = true then t :: active_tempos xs else active_tempos xs
  | .meter _ :: xs => active_tempos xs

/-- The meter sections of a metrics list, in order. -/
def meters_of : Metrics → List MeterSec
  | [] => []
  | .meter m :: xs => m :: meters_of xs
  | .tempo _ :: xs => meters_of xs

/-- The tempo sections of a metrics list, in order. -/
def tempos_of : Metrics → List TempoSec
  | [] => []
  | .tempo t :: xs => t :: tempos_of xs
  | .meter _ :: xs => tempos_of xs

/-- The condition `check_solved` imposes on a pair of adjacent active
tempo sections: strictly increasing frame and pulse, exact frame
agreement through the predecessor unless the successor is meter-locked,
and `|c| ≤ 1000` for the predecessor (whatever its type). -/
def tempo_pair_ok (sr : ℤ) (p t : TempoSec) : Prop :=
  p.frame < t.frame ∧ p.pulse < t.pulse ∧
  (t.lockedToMeter = false → t.frame = p.frame_at_tempo t.ppm t.pulse sr) ∧
  |p.cFunc| ≤ 1000

/-- The condition `check_solved` imposes on a meter that has a
predecessor meter: an AudioTime meter's frame computed through the tempo
curve may exceed the stored frame by at most one sample and must be
non-negative (the computed frame may be arbitrarily smaller). -/
def meter_ok (sr : ℤ) (all : Metrics) (m : MeterSec) : Prop :=
  m.lockStyle = .AudioTime →
    ∀ t, tempo_section_at_frame_go (m.frame - 1) all none = some t →
      t.frame_at_pulse m.pulse sr ≤ m.frame + 1 ∧ 0 ≤ t.frame_at_pulse m.pulse sr

/-- The amended characterisation of `check_solved` (C3): pairwise
conditions along the active tempo chain, and the one-sided meter check
for every meter after the first. -/
def spec_solved_amended (sr : ℤ) (ms : Metrics) : Prop :=
  List.Chain' (tempo_pair_ok sr) (active_tempos ms) ∧
  ∀ m ∈ (meters_of ms).tail, meter_ok sr ms m

/-- The characterisation of `check_solved` exactly as claim C3 states
it: adjacent active tempi strictly increasing in frame and pulse, frame
agreement for non-meter-locked sections, `|c| ≤ 1000` for every *ramped*
section, and *every* AudioTime meter's frame within *one sample* (both
sides) of the frame computed via the prior tempo segment. -/
def spec_solved_claim (sr : ℤ) (ms : Metrics) : Prop :=
  List.Chain' (fun p t => p.frame < t.frame ∧ p.pulse < t.pulse) (active_tempos ms) ∧
  List.Chain' (fun p t => t.lockedToMeter = false →
    t.frame = p.frame_at_tempo t.ppm t.pulse sr) (active_tempos ms) ∧
  (∀ t ∈ active_tempos ms, t.ttype = TType.Ramp → |t.cFunc| ≤ 1000) ∧
  (∀ m ∈ meters_of ms, m.lockStyle = .AudioTime →
    ∀ t, tempo_section_at_frame_go (m.frame - 1) ms none = some t →
      |t.frame_at_pulse m.pulse sr - m.frame| ≤ 1)

/-- The first active tempo section of a metrics list. -/
def first_active_tempo : Metrics → Option TempoSec
  | [] => none
  | .tempo t :: xs => if t.active = true then some t else first_active_tempo xs
  | .meter _ :: xs => first_active_tempo xs

/-- The last active tempo section of a metrics list. -/
def last_active_tempo : Metrics → Option TempoSec
  | [] => none
  | .tempo t :: xs =>
    (last_active_tempo xs).orElse (fun _ => if t.active = true then some t else none)
  | .meter _ :: xs => last_active_tempo xs

/-- Predicate: a non-movable tempo section. -/
def nmtP : Metric → Bool
  | .tempo t => !t.movable
  | .meter _ => false

/-- Predicate: a non-movable meter section. -/
def nmmP : Metric → Bool
  | .tempo _ => false
  | .meter m => !m.movable

/-- Number of non-movable tempo sections. -/
def n_nonmovable_tempos (ms : Metrics) : ℕ := ms.countP nmtP

/-- Number of non-movable meter sections. -/
def n_nonmovable_meters (ms : Metrics) : ℕ := ms.countP nmmP

/-- Global invariant 1 of the spec (claim C7): exactly one non-movable
tempo and one non-movable meter, both at frame 0 and pulse 0. -/
def invariant_one (ms : Metrics) : Prop :=
  n_nonmovable_tempos ms = 1 ∧ n_nonmovable_meters ms = 1 ∧
  (∀ t ∈ tempos_of ms, t.movable = false → t.frame = 0 ∧ t.pulse = 0) ∧
  (∀ m ∈ meters_of ms, m.movable = false → m.frame = 0 ∧ m.pulse = 0)

/-- The map state built by `TempoMap::TempoMap (frame_rate)`: the default
tempo (120 bpm, note type 4, Ramp, AudioTime, non-movable) and the
default meter (4/4 at 1|1|0, AudioTime, non-movable), both at frame 0,
pulse 0. -/
def initial_metrics : Metrics :=
  [.tempo ⟨0, 0, 120, 4, .Ramp, .AudioTime, false, true, false, 0⟩,
   .meter ⟨0, 0, 0, ⟨1, 1, 0⟩, 4, 4, .AudioTime, false⟩]

/-- The set of meters `check_solved_go` still examines given the
previous-meter accumulator: all meters of the remaining list, except that
with no previous meter the first one is skipped. -/
def meters_checked (pm : Option MeterSec) (l : Metrics) : List MeterSec :=
  match pm with
  | some _ => meters_of l
  | none => (meters_of l).tail

/-- The map of `FrameposPlusBeatsTest::singleTempoTest` after its two
`replace` calls: a constant 120 bpm tempo at frame 0 and a 4/4 meter at
1|1|0, frame 0 (sample rate 48000). -/
def c4_map : Metrics :=
  [.tempo ⟨0, 0, 120, 4, .Constant, .AudioTime, false, true, false, 0⟩,
   .meter ⟨0, 0, 0, ⟨1, 1, 0⟩, 4, 4, .AudioTime, false⟩]

/-- A map `check_solved` accepts in which the second meter sits one sample
past the exact frame of beat 4 (96000 at 120 bpm / 48000 Hz): the one-sample
tolerance of the meter check admits it. -/
def cex2_map : Metrics :=
  [.tempo ⟨0, 0, 120, 4, .Constant, .AudioTime, false, true, false, 0⟩,
   .meter ⟨0, 0, 0, ⟨1, 1, 0⟩, 4, 4, .AudioTime, false⟩,
   .tempo ⟨1, 96001, 120, 4, .Constant, .AudioTime, true, true, true, 0⟩,
   .meter ⟨1, 96001, 4, ⟨2, 1, 0⟩, 4, 4, .AudioTime, true⟩]

/-- A 60 bpm (note type 4) ramp section at pulse 0, frame 0, before its
`c` is fitted. -/
def t60 : TempoSec := ⟨0, 0, 60, 4, .Ramp, .AudioTime, true, true, false, 0⟩

/-- The same 60 bpm ramp section carrying the fitted `c = 15`. -/
def t60c15 : TempoSec := ⟨0, 0, 60, 4, .Ramp, .AudioTime, true, true, false, 15⟩

/-- A map with the 60 bpm ramp at frame 0 followed by a 120 bpm tempo at
pulse 1 (the configuration of claim C8). -/
def c8_map : Metrics :=
  [.tempo ⟨0, 0, 60, 4, .Ramp, .AudioTime, false, true, false, 0⟩,
   .tempo ⟨1, 0, 120, 4, .Ramp, .MusicTime, true, true, false, 0⟩]

/-- A map holding a meter-locked movable tempo at frame 4096 while no
movable meter sits at that frame. -/
def msC1 : Metrics :=
  [.tempo ⟨0, 0, 120, 4, .Constant, .AudioTime, false, true, false, 0⟩,
   .meter ⟨0, 0, 0, ⟨1, 1, 0⟩, 4, 4, .AudioTime, false⟩,
   .tempo ⟨1, 4096, 140, 4, .Constant, .AudioTime, true, true, true, 0⟩]

/-- An AudioTime meter value at frame 4096 (the argument of the
`remove_meter` call of claim C1). -/
def qC1 : MeterSec := ⟨1, 4096, 4, ⟨2, 1, 0⟩, 4, 4, .AudioTime, true⟩

/-- A single-section map whose only (hence last) tempo section is ramped
with `c = 2000`: `check_solved` never examines the last section's `c`. -/
def cex3_map : Metrics :=
  [.tempo ⟨0, 0, 120, 4, .Ramp, .AudioTime, false, true, false, 2000⟩]

/-- The state `replace_tempo` produces from `initial_metrics` when the
caller passes frame 500 for the first (non-movable) tempo: the non-movable
tempo now sits at frame 500. -/
def c7cex_out : Metrics :=
  [.tempo ⟨0, 500, 140, 4, .Constant, .AudioTime, false, true, false, 0⟩,
   .meter ⟨0, 0, 0, ⟨1, 1, 0⟩, 4, 4, .AudioTime, false⟩]

end

/-- `recompute_step` only changes pulse or frame. -/
lemma recompute_step_fields (sr : ℤ) (q t : TempoSec) :
    (recompute_step sr q t).movable = t.movable ∧
    (recompute_step sr q t).active = t.active := by
  unfold recompute_step
  cases t.lockStyle with
  | AudioTime =>
    by_cases hl : t.lockedToMeter
    · simp [hl]
    · simp [hl]
  | MusicTime => simp

lemma time_at_pulse_pulse_at_time (t : TempoSec) (x : ℝ)
    (hc : t.cFunc ≠ 0) (hppm : t.ppm ≠ 0) :
    t.time_at_pulse (t.pulse_at_time x) = x := by
  unfold TempoSec.time_at_pulse TempoSec.pulse_at_time expm1 log1p
  have harg : t.cFunc * ((Real.exp (t.cFunc * x) - 1) * (t.ppm / t.cFunc)) / t.ppm =
      Real.exp (t.cFunc * x) - 1 := by
    field_simp
  rw [harg, show (1 : ℝ) + (Real.exp (t.cFunc * x) - 1) = Real.exp (t.cFunc * x) from by ring,
    Real.log_exp, mul_div_cancel_left₀ _ hc]

lemma minute_to_frame_frame_to_minute (d sr : ℤ) (hsr : (sr : ℝ) ≠ 0) :
    TempoSec.minute_to_frame (TempoSec.frame_to_minute d sr) sr = d := by
  unfold TempoSec.minute_to_frame TempoSec.frame_to_minute
  have : ((d : ℝ) / sr / 60) * 60 * sr = (d : ℝ) := by
    field_simp
    ring
  rw [this, Int.floor_int_add]
  norm_num

lemma frame_at_pulse_pulse_at_frame (t : TempoSec) (f sr : ℤ)
    (hsr : (sr : ℝ) ≠ 0) (hppm : t.ppm ≠ 0) :
    t.frame_at_pulse (t.pulse_at_frame f sr) sr = f := by
  by_cases h : t.constOrZero
  · rw [TempoSec.pulse_at_frame, if_pos h, TempoSec.frame_at_pulse, if_pos h]
    have hfpp : t.frames_per_pulse sr ≠ 0 := by
      unfold TempoSec.frames_per_pulse
      exact div_ne_zero (mul_ne_zero (by norm_num) hsr) hppm
    have hkey : (((f : ℝ) - t.frame) / t.frames_per_pulse sr + t.pulse - t.pulse) *
        t.frames_per_pulse sr = ((f - t.frame : ℤ) : ℝ) := by
      push_cast
      field_simp
      ring
    rw [hkey, Int.floor_intCast]
    omega
  · have hc : t.cFunc ≠ 0 := fun hzero => h (Or.inr hzero)
    rw [TempoSec.pulse_at_frame, if_neg h, TempoSec.frame_at_pulse, if_neg h,
      add_sub_cancel_right, time_at_pulse_pulse_at_time t _ hc hppm,
      minute_to_frame_frame_to_minute _ _ hsr]
    omega

lemma meters_checked_tempo (pm : Option MeterSec) (t : TempoSec) (xs : Metrics) :
    meters_checked pm (.tempo t :: xs) = meters_checked pm xs := by
  cases pm <;> rfl

lemma check_solved_go_iff (sr : ℤ) (all : Metrics) :
    ∀ (l : Metrics) (pt : Option TempoSec) (pm : Option MeterSec) (b : Bool),
      check_solved_go sr all l pt pm = some b →
      (b = true ↔
        (List.Chain' (tempo_pair_ok sr) (pt.toList ++ active_tempos l) ∧
         ∀ m ∈ meters_checked pm l, meter_ok sr all m)) := by
  intro l
  induction l with
  | nil =>
    intro pt pm b hb
    simp only [check_solved_go, Option.some.injEq] at hb
    subst hb
    constructor
    · intro _
      refine ⟨?_, ?_⟩
      · cases pt with
        | none => simp [active_tempos]
        | some p => simp [active_tempos]
      · intro m hm
        cases pm <;> simp [meters_checked, meters_of] at hm
    · intro _; rfl
  | cons x xs ih =>
    cases x with
    | tempo t =>
      intro pt pm b hb
      cases pt with
      | none =>
        by_cases hact : t.active = true
        · rw [check_solved_go, if_pos hact] at hb
          have := ih (some t) pm b hb
          rw [this]
          simp [active_tempos, hact, meters_checked_tempo]
        · rw [check_solved_go, if_neg hact] at hb
          have := ih none pm b hb
          rw [this]
          simp [active_tempos, hact, meters_checked_tempo]
      | some p =>
        by_cases hact : t.active = true
        · rw [check_solved_go, if_pos hact] at hb
          by_cases h1 : t.frame ≤ p.frame ∨ t.pulse ≤ p.pulse
          · rw [if_pos h1] at hb
            simp only [Option.some.injEq] at hb
            subst hb
            simp only [Bool.false_eq_true, false_iff]
            intro hcontra
            have hchain := hcontra.1
            simp only [Option.toList_some, List.cons_append, List.nil_append,
              active_tempos, hact, if_true] at hchain
            rw [List.chain'_cons] at hchain
            have hpair := hchain.1
            unfold tempo_pair_ok at hpair
            rcases h1 with h1 | h1
            · exact absurd hpair.1 (not_lt.mpr h1)
            · exact absurd hpair.2.1 (not_lt.mpr h1)
          · rw [if_neg h1] at hb
            by_cases h2 : t.frame ≠ p.frame_at_tempo t.ppm t.pulse sr ∧ t.lockedToMeter = false
            · rw [if_pos h2] at hb
              simp only [Option.some.injEq] at hb
              subst hb
              simp only [Bool.false_eq_true, false_iff]
              intro hcontra
              have hchain := hcontra.1
              simp only [Option.toList_some, List.cons_append, List.nil_append,
                active_tempos, hact, if_true] at hchain
              rw [List.chain'_cons] at hchain
              exact h2.1 (hchain.1.2.2.1 h2.2)
            · rw [if_neg h2] at hb
              by_cases h3 : |p.cFunc| > 1000
              · rw [if_pos h3] at hb
                simp only [Option.some.injEq] at hb
                subst hb
                simp only [Bool.false_eq_true, false_iff]
                intro hcontra
                have hchain := hcontra.1
                simp only [Option.toList_some, List.cons_append, List.nil_append,
                  active_tempos, hact, if_true] at hchain
                rw [List.chain'_cons] at hchain
                exact absurd hchain.1.2.2.2 (not_le.mpr h3)
              · rw [if_neg h3] at hb
                have hpair : tempo_pair_ok sr p t := by
                  push_neg at h1
                  refine ⟨h1.1, h1.2, ?_, not_lt.mp h3⟩
                  intro hltm
                  by_contra hne
                  exact h2 ⟨hne, hltm⟩
                have := ih (some t) pm b hb
                rw [this]
                simp only [Option.toList_some, List.cons_append, List.nil_append,
                  active_tempos, hact, if_true, meters_checked_tempo]
                rw [List.chain'_cons]
                constructor
                · rintro ⟨hc2, hm⟩
                  exact ⟨⟨hpair, hc2⟩, hm⟩
                · rintro ⟨⟨_, hc2⟩, hm⟩
                  exact ⟨hc2, hm⟩
        · rw [check_solved_go, if_neg hact] at hb
          have := ih (some p) pm b hb
          rw [this]
          simp [active_tempos, hact, meters_checked_tempo]
    | meter m =>
      intro pt pm b hb
      by_cases hc : pm.isSome = true ∧ m.lockStyle = LockStyle.AudioTime
      · rw [show check_solved_go sr all (.meter m :: xs) pt pm =
            (if pm.isSome = true ∧ m.lockStyle = LockStyle.AudioTime then
              match tempo_section_at_frame_go (m.frame - 1) all none with
              | none => none
              | some t =>
                let nascent := t.frame_at_pulse m.pulse sr
                if nascent > m.frame + 1 ∨ nascent < 0 then some false
                else check_solved_go sr all xs pt (some m)
            else check_solved_go sr all xs pt (some m)) from rfl, if_pos hc] at hb
        cases hlook : tempo_section_at_frame_go (m.frame - 1) all none with
        | none =>
          rw [hlook] at hb
          exact absurd hb (by simp)
        | some t =>
          rw [hlook] at hb
          dsimp only [] at hb
          by_cases hbad : t.frame_at_pulse m.pulse sr > m.frame + 1 ∨
              t.frame_at_pulse m.pulse sr < 0
          · rw [if_pos hbad] at hb
            simp only [Option.some.injEq] at hb
            subst hb
            simp only [Bool.false_eq_true, false_iff]
            intro hcontra
            obtain ⟨_, hms⟩ := hcontra
            obtain ⟨pmv, hpmv⟩ := Option.isSome_iff_exists.mp hc.1
            subst hpmv
            have hmem : m ∈ meters_checked (some pmv) (.meter m :: xs) := by
              simp [meters_checked, meters_of]
            have hok := hms m hmem hc.2 t hlook
            rcases hbad with hbad | hbad
            · exact absurd hok.1 (not_le.mpr hbad)
            · exact absurd hok.2 (not_le.mpr hbad)
          · rw [if_neg hbad] at hb
            have hok : meter_ok sr all m := by
              intro _ t2 hlook2
              rw [hlook] at hlook2
              cases hlook2
              push_neg at hbad
              exact ⟨hbad.1, hbad.2⟩
            have := ih pt (some m) b hb
            rw [this]
            obtain ⟨pmv, hpmv⟩ := Option.isSome_iff_exists.mp hc.1
            subst hpmv
            simp only [active_tempos, meters_checked, meters_of]
            constructor
            · rintro ⟨hch, hms⟩
              refine ⟨hch, ?_⟩
              intro mq hmq
              rcases List.mem_cons.mp hmq with h | h
              · subst h; exact hok
              · exact hms mq h
            · rintro ⟨hch, hms⟩
              exact ⟨hch, fun mq hmq => hms mq (List.mem_cons_of_mem m hmq)⟩
      · rw [show check_solved_go sr all (.meter m :: xs) pt pm =
            (if pm.isSome = true ∧ m.lockStyle = LockStyle.AudioTime then
              match tempo_section_at_frame_go (m.frame - 1) all none with
              | none => none
              | some t =>
                let nascent := t.frame_at_pulse m.pulse sr
                if nascent > m.frame + 1 ∨ nascent < 0 then some false
                else check_solved_go sr all xs pt (some m)
            else check_solved_go sr all xs pt (some m)) from rfl, if_neg hc] at hb
        have := ih pt (some m) b hb
        rw [this]
        cases pm with
        | none =>
          simp only [active_tempos, meters_checked, meters_of, List.tail_cons]
        | some pmv =>
          have hnotaudio : ¬ m.lockStyle = LockStyle.AudioTime := by
            intro ha
            exact hc ⟨rfl, ha⟩
          have hok : meter_ok sr all m := fun ha => absurd ha hnotaudio
          simp only [active_tempos, meters_checked, meters_of]
          constructor
          · rintro ⟨hch, hms⟩
            refine ⟨hch, ?_⟩
            intro mq hmq
            rcases List.mem_cons.mp hmq with h | h
            · subst h; exact hok
            · exact hms mq h
          · rintro ⟨hch, hms⟩
            exact ⟨hch, fun mq hmq => hms mq (List.mem_cons_of_mem m hmq)⟩

lemma recompute_tempi_aux_fst (sr : ℤ) :
    ∀ (l : Metrics) (p : TempoSec),
      (recompute_tempi_aux sr p l).1.pulse = p.pulse ∧
      (recompute_tempi_aux sr p l).1.movable = p.movable ∧
      (recompute_tempi_aux sr p l).1.active = p.active := by
  intro l
  induction l with
  | nil => intro p; simp [recompute_tempi_aux]
  | cons x xs ih =>
    intro p
    cases x with
    | meter m => simpa [recompute_tempi_aux] using ih p
    | tempo t =>
      by_cases hact : t.active = true
      · simp [recompute_tempi_aux, hact]
      · simpa [recompute_tempi_aux, hact] using ih p

lemma last_active_cons_meter (m : MeterSec) (xs : Metrics) :
    last_active_tempo (.meter m :: xs) = last_active_tempo xs := rfl

lemma last_active_cons_tempo_inactive (t : TempoSec) (xs : Metrics)
    (hact : ¬ t.active = true) :
    last_active_tempo (.tempo t :: xs) = last_active_tempo xs := by
  rw [last_active_tempo, if_neg hact]
  cases h : last_active_tempo xs with
  | none => rfl
  | some u => rfl

lemma last_active_cons_tempo_some (t : TempoSec) (xs : Metrics) (u : TempoSec)
    (h : last_active_tempo xs = some u) :
    last_active_tempo (.tempo t :: xs) = some u := by
  rw [last_active_tempo, h]
  rfl

lemma recompute_tempi_first_active (sr : ℤ) :
    ∀ (ms r : Metrics), recompute_tempi_start sr ms = some r →
      ∀ u, first_active_tempo r = some u → u.movable = false → u.pulse = 0 := by
  intro ms
  induction ms with
  | nil => intro r hr; simp [recompute_tempi_start] at hr
  | cons x xs ih =>
    intro r hr
    cases x with
    | meter m =>
      rw [recompute_tempi_start] at hr
      rcases Option.map_eq_some'.mp hr with ⟨r2, hr2, hrr⟩
      subst hrr
      intro u hu
      rw [first_active_tempo] at hu
      exact ih r2 hr2 u hu
    | tempo t =>
      by_cases hact : t.active = true
      · rw [recompute_tempi_start, if_pos hact] at hr
        by_cases hm : t.movable = true
        · rw [if_pos hm] at hr
          simp only [Option.some.injEq] at hr
          subst hr
          intro u hu hmov
          have hf := recompute_tempi_aux_fst sr xs t
          rw [first_active_tempo, hf.2.2, if_pos hact] at hu
          simp only [Option.some.injEq] at hu
          subst hu
          rw [hf.2.1, hm] at hmov
          exact absurd hmov (by simp)
        · rw [if_neg hm] at hr
          simp only [Option.some.injEq] at hr
          subst hr
          intro u hu _
          have hf := recompute_tempi_aux_fst sr xs {t with pulse := 0}
          rw [first_active_tempo, hf.2.2,
            show ({t with pulse := 0} : TempoSec).active = t.active from rfl,
            if_pos hact] at hu
          simp only [Option.some.injEq] at hu
          subst hu
          exact hf.1
      · rw [recompute_tempi_start, if_neg hact] at hr
        rcases Option.map_eq_some'.mp hr with ⟨r2, hr2, hrr⟩
        subst hrr
        intro u hu
        rw [first_active_tempo, if_neg hact] at hu
        exact ih r2 hr2 u hu

lemma recompute_tempi_aux_last (sr : ℤ) :
    ∀ (l : Metrics) (p : TempoSec), p.active = true →
      ∃ u, last_active_tempo
          (.tempo (recompute_tempi_aux sr p l).1 :: (recompute_tempi_aux sr p l).2) =
        some u ∧ u.cFunc = 0 := by
  intro l
  induction l with
  | nil =>
    intro p hp
    refine ⟨{p with cFunc := 0}, ?_, rfl⟩
    simp [recompute_tempi_aux, last_active_tempo, hp]
  | cons x xs ih =>
    intro p hp
    cases x with
    | meter m =>
      rcases ih p hp with ⟨u, hu, hc⟩
      refine ⟨u, ?_, hc⟩
      rw [recompute_tempi_aux]
      rw [last_active_tempo, last_active_cons_meter]
      rw [last_active_tempo] at hu
      exact hu
    | tempo t =>
      by_cases hact : t.active = true
      · have heq : recompute_tempi_aux sr p (.tempo t :: xs) =
            ({p with cFunc := recompute_c sr p t},
              .tempo (recompute_tempi_aux sr (recompute_step sr p t) xs).1 ::
                (recompute_tempi_aux sr (recompute_step sr p t) xs).2) := by
          rw [recompute_tempi_aux, if_pos hact]
        have ht2act : (recompute_step sr p t).active = true :=
          (recompute_step_fields sr p t).2.trans hact
        rcases ih (recompute_step sr p t) ht2act with ⟨u, hu, hc⟩
        refine ⟨u, ?_, hc⟩
        rw [heq]
        show last_active_tempo
          (.tempo ({p with cFunc := recompute_c sr p t}) ::
            .tempo (recompute_tempi_aux sr (recompute_step sr p t) xs).1 ::
              (recompute_tempi_aux sr (recompute_step sr p t) xs).2) = some u
        exact last_active_cons_tempo_some _ _ u hu
      · rcases ih p hp with ⟨u, hu, hc⟩
        refine ⟨u, ?_, hc⟩
        have heq : recompute_tempi_aux sr p (.tempo t :: xs) =
            ((recompute_tempi_aux sr p xs).1,
              .tempo t :: (recompute_tempi_aux sr p xs).2) := by
          rw [recompute_tempi_aux, if_neg hact]
        rw [heq]
        show last_active_tempo
          (.tempo (recompute_tempi_aux sr p xs).1 ::
            .tempo t :: (recompute_tempi_aux sr p xs).2) = some u
        rw [last_active_tempo, last_active_cons_tempo_inactive t _ hact]
        rw [last_active_tempo] at hu
        exact hu

lemma recompute_tempi_last_active (sr : ℤ) :
    ∀ (ms r : Metrics), recompute_tempi_start sr ms = some r →
      ∃ u, last_active_tempo r = some u ∧ u.cFunc = 0 := by
  intro ms
  induction ms with
  | nil => intro r hr; simp [recompute_tempi_start] at hr
  | cons x xs ih =>
    intro r hr
    cases x with
    | meter m =>
      rw [recompute_tempi_start] at hr
      rcases Option.map_eq_some'.mp hr with ⟨r2, hr2, hrr⟩
      subst hrr
      rcases ih r2 hr2 with ⟨u, hu, hc⟩
      exact ⟨u, by rw [last_active_cons_meter]; exact hu, hc⟩
    | tempo t =>
      by_cases hact : t.active = true
      · rw [recompute_tempi_start, if_pos hact] at hr
        simp only [Option.some.injEq] at hr
        subst hr
        have hpa : (if t.movable = true then t else {t with pulse := 0}).active = true := by
          by_cases hm : t.movable = true
          · rw [if_pos hm]; exact hact
          · rw [if_neg hm]; exact hact
        exact recompute_tempi_aux_last sr xs _ hpa
      · rw [recompute_tempi_start, if_neg hact] at hr
        rcases Option.map_eq_some'.mp hr with ⟨r2, hr2, hrr⟩
        subst hrr
        rcases ih r2 hr2 with ⟨u, hu, hc⟩
        exact ⟨u, by rw [last_active_cons_tempo_inactive t _ hact]; exact hu, hc⟩

lemma recompute_tempi_start_isSome (sr : ℤ) :
    ∀ (ms : Metrics) (t : TempoSec), first_active_tempo ms = some t →
      ∃ r, recompute_tempi_start sr ms = some r := by
  intro ms
  induction ms with
  | nil => intro t ht; simp [first_active_tempo] at ht
  | cons x xs ih =>
    intro t ht
    cases x with
    | meter m =>
      rw [first_active_tempo] at ht
      rcases ih t ht with ⟨r, hr⟩
      exact ⟨.meter m :: r, by rw [recompute_tempi_start, hr]; rfl⟩
    | tempo u =>
      by_cases hact : u.active = true
      · exact ⟨_, by rw [recompute_tempi_start, if_pos hact]⟩
      · rw [first_active_tempo, if_neg hact] at ht
        rcases ih t ht with ⟨r, hr⟩
        exact ⟨.tempo u :: r, by rw [recompute_tempi_start, if_neg hact, hr]; rfl⟩


lemma countP_set_same (p : Metric → Bool) : ∀ (l : List Metric) (i : ℕ) (x y : Metric),
    l[i]? = some x → p y = p x → (l.set i y).countP p = l.countP p := by
  intro l
  induction l with
  | nil => intro i x y hx; simp at hx
  | cons a as ih =>
    intro i x y hx hpy
    cases i with
    | zero =>
      simp only [List.getElem?_cons_zero, Option.some.injEq] at hx
      subst hx
      simp [List.countP_cons, hpy]
    | succ n =>
      simp only [List.getElem?_cons_succ] at hx
      simp [List.countP_cons, ih n x y hx hpy]

lemma countP_recompute_tempi_aux (p : Metric → Bool)
    (hpT : ∀ a b : TempoSec, a.movable = b.movable → p (.tempo a) = p (.tempo b))
    (sr : ℤ) :
    ∀ (l : Metrics) (q : TempoSec),
      (Metric.tempo (recompute_tempi_aux sr q l).1 ::
        (recompute_tempi_aux sr q l).2).countP p =
      (Metric.tempo q :: l).countP p := by
  intro l
  induction l with
  | nil =>
    intro q
    simp only [recompute_tempi_aux, List.countP_cons, List.countP_nil]
    rw [hpT {q with cFunc := 0} q rfl]
  | cons x xs ih =>
    intro q
    cases x with
    | meter m =>
      have heq : recompute_tempi_aux sr q (.meter m :: xs) =
          ((recompute_tempi_aux sr q xs).1,
            .meter m :: (recompute_tempi_aux sr q xs).2) := by
        rw [recompute_tempi_aux]
      rw [heq]
      show (Metric.tempo (recompute_tempi_aux sr q xs).1 ::
        Metric.meter m :: (recompute_tempi_aux sr q xs).2).countP p = _
      have hih := ih q
      simp only [List.countP_cons] at hih ⊢
      omega
    | tempo t =>
      by_cases hact : t.active = true
      · have heq : recompute_tempi_aux sr q (.tempo t :: xs) =
            ({q with cFunc := recompute_c sr q t},
              .tempo (recompute_tempi_aux sr (recompute_step sr q t) xs).1 ::
                (recompute_tempi_aux sr (recompute_step sr q t) xs).2) := by
          rw [recompute_tempi_aux, if_pos hact]
        rw [heq]
        show (Metric.tempo ({q with cFunc := recompute_c sr q t}) ::
          Metric.tempo (recompute_tempi_aux sr (recompute_step sr q t) xs).1 ::
            (recompute_tempi_aux sr (recompute_step sr q t) xs).2).countP p = _
        have hih := ih (recompute_step sr q t)
        have h1 : p (.tempo {q with cFunc := recompute_c sr q t}) = p (.tempo q) :=
          hpT _ _ rfl
        have h2 : p (.tempo (recompute_step sr q t)) = p (.tempo t) :=
          hpT _ _ (recompute_step_fields sr q t).1
        simp only [List.countP_cons] at hih ⊢
        rw [h1]
        rw [h2] at hih
        omega
      · have heq : recompute_tempi_aux sr q (.tempo t :: xs) =
            ((recompute_tempi_aux sr q xs).1,
              .tempo t :: (recompute_tempi_aux sr q xs).2) := by
          rw [recompute_tempi_aux, if_neg hact]
        rw [heq]
        show (Metric.tempo (recompute_tempi_aux sr q xs).1 ::
          Metric.tempo t :: (recompute_tempi_aux sr q xs).2).countP p = _
        have hih := ih q
        simp only [List.countP_cons] at hih ⊢
        omega

lemma countP_recompute_tempi (p : Metric → Bool)
    (hpT : ∀ a b : TempoSec, a.movable = b.movable → p (.tempo a) = p (.tempo b))
    (sr : ℤ) :
    ∀ (ms r : Metrics), recompute_tempi_start sr ms = some r →
      r.countP p = ms.countP p := by
  intro ms
  induction ms with
  | nil => intro r hr; simp [recompute_tempi_start] at hr
  | cons x xs ih =>
    intro r hr
    cases x with
    | meter m =>
      rw [recompute_tempi_start] at hr
      rcases Option.map_eq_some'.mp hr with ⟨r2, hr2, hrr⟩
      subst hrr
      simp only [List.countP_cons, ih r2 hr2]
    | tempo t =>
      by_cases hact : t.active = true
      · rw [recompute_tempi_start, if_pos hact] at hr
        simp only [Option.some.injEq] at hr
        subst hr
        have haux := countP_recompute_tempi_aux p hpT sr xs
          (if t.movable = true then t else {t with pulse := 0})
        have hsame : p (.tempo (if t.movable = true then t else {t with pulse := 0})) =
            p (.tempo t) := by
          by_cases hm : t.movable = true
          · rw [if_pos hm]
          · rw [if_neg hm]; exact hpT _ _ rfl
        simp only [List.countP_cons] at haux ⊢
        rw [hsame] at haux
        omega
      · rw [recompute_tempi_start, if_neg hact] at hr
        rcases Option.map_eq_some'.mp hr with ⟨r2, hr2, hrr⟩
        subst hrr
        simp only [List.countP_cons, ih r2 hr2]

lemma countP_recompute_meters_audio (p : Metric → Bool)
    (hpT : ∀ a b : TempoSec, a.movable = b.movable → p (.tempo a) = p (.tempo b))
    (hpM : ∀ a b : MeterSec, a.movable = b.movable → p (.meter a) = p (.meter b))
    (ms : Metrics) (i : ℕ) (m : MeterSec) (pm : Option MeterSec)
    (hget : ms[i]? = some (.meter m)) :
    ((recompute_meters_audio ms i m pm).1).countP p = ms.countP p := by
  unfold recompute_meters_audio
  dsimp only []
  set v := recompute_meters_audio_vals m pm with hv
  set m1 : MeterSec := {m with beat := v.2.1, bbt := v.2.2, pulse := v.1} with hm1
  have hs1 : (ms.set i (.meter m1)).countP p = ms.countP p :=
    countP_set_same p ms i _ _ hget (hpM m1 m rfl)
  cases hj : find_meter_locked_tempo_idx m.frame ms 0 with
  | none => simpa [hj] using hs1
  | some j =>
    cases hg2 : (ms.set i (.meter m1))[j]? with
    | none => simpa [hj, hg2] using hs1
    | some x =>
      cases x with
      | meter mm => simpa [hj, hg2] using hs1
      | tempo tj =>
        simp only [hj, hg2]
        rw [countP_set_same p _ j (Metric.tempo tj)
          (Metric.tempo {tj with pulse := v.1}) hg2 (hpT _ _ rfl)]
        exact hs1

lemma countP_recompute_meters_music (p : Metric → Bool)
    (hpM : ∀ a b : MeterSec, a.movable = b.movable → p (.meter a) = p (.meter b))
    (sr : ℤ) (ms : Metrics) (i : ℕ) (m : MeterSec) (pm : Option MeterSec)
    (hget : ms[i]? = some (.meter m)) :
    ∀ r, recompute_meters_music sr ms i m pm = some r →
      r.1.countP p = ms.countP p := by
  intro r hr
  unfold recompute_meters_music at hr
  cases hpb : recompute_meters_music_vals ms m pm with
  | none => rw [hpb] at hr; exact absurd hr (by simp)
  | some v =>
    rw [hpb] at hr
    dsimp only [] at hr
    cases hfr : frame_at_pulse_locked sr
        (ms.set i (.meter {m with beat := v.1, bbt := v.2.1, pulse := v.2.2})) v.2.2 with
    | none => rw [hfr] at hr; exact absurd hr (by simp)
    | some fr =>
      rw [hfr] at hr
      simp only [Option.some.injEq] at hr
      subst hr
      dsimp only []
      have hlen : i < ms.length := by
        rcases List.getElem?_eq_some.mp hget with ⟨hl, _⟩
        exact hl
      have h1 := countP_set_same p ms i (Metric.meter m)
        (Metric.meter {m with beat := v.1, bbt := v.2.1, pulse := v.2.2}) hget (hpM _ _ rfl)
      have hget1 : (ms.set i (.meter {m with beat := v.1, bbt := v.2.1, pulse := v.2.2}))[i]? =
          some (.meter {m with beat := v.1, bbt := v.2.1, pulse := v.2.2}) :=
        List.getElem?_set_self hlen
      rw [countP_set_same p _ i
        (Metric.meter {m with beat := v.1, bbt := v.2.1, pulse := v.2.2})
        (Metric.meter ⟨v.2.2, fr, v.1, v.2.1, m.divPerBar, m.noteDivisor,
          m.lockStyle, m.movable⟩)
        hget1 (hpM _ _ rfl)]
      exact h1

lemma countP_recompute_meters_go (p : Metric → Bool)
    (hpT : ∀ a b : TempoSec, a.movable = b.movable → p (.tempo a) = p (.tempo b))
    (hpM : ∀ a b : MeterSec, a.movable = b.movable → p (.meter a) = p (.meter b))
    (sr : ℤ) :
    ∀ (n i : ℕ) (ms : Metrics) (pm : Option MeterSec) (r : Metrics),
      recompute_meters_go sr n i ms pm = some r → r.countP p = ms.countP p := by
  intro n
  induction n with
  | zero =>
    intro i ms pm r hr
    simp only [recompute_meters_go, Option.some.injEq] at hr
    subst hr
    rfl
  | succ k ih =>
    intro i ms pm r hr
    rw [recompute_meters_go] at hr
    split at hr
    · simp only [Option.some.injEq] at hr
      subst hr
      rfl
    · exact ih (i + 1) ms pm r hr
    · rename_i m hg
      split at hr
      · exact (ih (i + 1) _ _ r hr).trans
          (countP_recompute_meters_audio p hpT hpM ms i m pm hg)
      · split at hr
        · exact absurd hr (by simp)
        · rename_i r2 hmm
          exact (ih (i + 1) r2.1 (some r2.2) r hr).trans
            (countP_recompute_meters_music p hpM sr ms i m pm hg r2 hmm)

lemma countP_set_set_tempo (p : Metric → Bool)
    (hpT : ∀ a b : TempoSec, a.movable = b.movable → p (.tempo a) = p (.tempo b))
    (ms : Metrics) (i j : ℕ) (t tp t' p' : TempoSec)
    (hgi : ms[i]? = some (.tempo t)) (hgj : ms[j]? = some (.tempo tp))
    (hm1 : t'.movable = t.movable) (hm2 : p'.movable = tp.movable) :
    ((ms.set j (.tempo p')).set i (.tempo t')).countP p = ms.countP p := by
  by_cases hij : i = j
  · subst hij
    rw [List.set_set]
    exact countP_set_same p ms i _ _ hgi (hpT _ _ hm1)
  · have hgi2 : (ms.set j (.tempo p'))[i]? = some (.tempo t) := by
      rw [List.getElem?_set_ne (fun hji => hij hji.symm)]
      exact hgi
    rw [countP_set_same p _ i (Metric.tempo t) (Metric.tempo t') hgi2 (hpT _ _ hm1),
        countP_set_same p ms j (Metric.tempo tp) (Metric.tempo p') hgj (hpT _ _ hm2)]

lemma movable_ite_locked (t : TempoSec) (x : ℝ) :
    (if t.lockedToMeter then t else {t with pulse := x}).movable = t.movable := by
  by_cases hl : t.lockedToMeter
  · rw [if_pos hl]
  · rw [if_neg hl]

lemma countP_solve_frame_pass (p : Metric → Bool)
    (hpT : ∀ a b : TempoSec, a.movable = b.movable → p (.tempo a) = p (.tempo b))
    (sr : ℤ) (si : Option ℕ) :
    ∀ (n i : ℕ) (ms : Metrics) (pt sp : Option ℕ),
      ((solve_frame_pass sr si n i ms pt sp).1).countP p = ms.countP p := by
  intro n
  induction n with
  | zero => intro i ms pt sp; rfl
  | succ k ih =>
    intro i ms pt sp
    rw [solve_frame_pass]
    split
    · rfl
    · exact ih _ _ _ _
    · split
      · split
        · exact ih _ _ _ _
        · split
          · split
            · exact ih _ _ _ _
            · exact ih _ _ _ _
          · split
            · split
              · rw [ih]
                exact countP_set_set_tempo p hpT ms _ _ _ _ _ _
                  (by assumption) (by assumption) (by rfl) (by rfl)
              · rw [ih]
                exact countP_set_set_tempo p hpT ms _ _ _ _ _ _
                  (by assumption) (by assumption) (by exact movable_ite_locked _ _) (by rfl)
            · exact ih _ _ _ _
      · exact ih _ _ _ _

lemma countP_solve_pulse_pass (p : Metric → Bool)
    (hpT : ∀ a b : TempoSec, a.movable = b.movable → p (.tempo a) = p (.tempo b))
    (sr : ℤ) (si : Option ℕ) :
    ∀ (n i : ℕ) (ms : Metrics) (pt sp : Option ℕ),
      ((solve_pulse_pass sr si n i ms pt sp).1).countP p = ms.countP p := by
  intro n
  induction n with
  | zero => intro i ms pt sp; rfl
  | succ k ih =>
    intro i ms pt sp
    rw [solve_pulse_pass]
    split
    · rfl
    · exact ih _ _ _ _
    · split
      · split
        · rw [ih]
          exact countP_set_same p ms _ _ _ (by assumption) (hpT _ _ (by rfl))
        · split
          · exact ih _ _ _ _
          · split
            · exact ih _ _ _ _
            · split
              · split
                · rw [ih]
                  exact countP_set_set_tempo p hpT ms _ _ _ _ _ _
                    (by assumption) (by assumption) (by rfl) (by rfl)
                · rw [ih]
                  exact countP_set_set_tempo p hpT ms _ _ _ _ _ _
                    (by assumption) (by assumption) (by exact movable_ite_locked _ _) (by rfl)
              · exact ih _ _ _ _
      · exact ih _ _ _ _

lemma countP_sort_by_frame (p : Metric → Bool) (ms : Metrics) :
    (sort_by_frame ms).countP p = ms.countP p :=
  (List.mergeSort_perm ms _).countP_eq p

lemma countP_sort_by_pulse (p : Metric → Bool) (ms : Metrics) :
    (sort_by_pulse ms).countP p = ms.countP p :=
  (List.mergeSort_perm ms _).countP_eq p

lemma countP_do_insert_tempo_replace (p : Metric → Bool)
    (hpT : ∀ a b : TempoSec, a.movable = b.movable → p (.tempo a) = p (.tempo b))
    (hpTmov : ∀ a : TempoSec, a.movable = true → p (.tempo a) = false)
    (it : TempoSec) :
    ∀ ms : Metrics, ((do_insert_tempo_replace it ms).1).countP p = ms.countP p := by
  intro ms
  induction ms with
  | nil => rfl
  | cons x xs ih =>
    cases x with
    | meter m =>
      show (Metric.meter m :: (do_insert_tempo_replace it xs).1).countP p = _
      simp only [List.countP_cons, ih]
    | tempo t =>
      rw [do_insert_tempo_replace]
      split
      · split
        · simp only [List.countP_cons]
          rw [hpT _ t (by rfl)]
        · have hmov : t.movable = true := by
            rename_i hnot
            cases hb : t.movable with
            | false => exact absurd hb hnot
            | true => rfl
          simp [List.countP_cons, hpTmov t hmov]
      · show (Metric.tempo t :: (do_insert_tempo_replace it xs).1).countP p = _
        simp only [List.countP_cons, ih]

lemma tempo_insert_idx_le (it : TempoSec) :
    ∀ (l : Metrics) (k : ℕ), tempo_insert_idx it l k ≤ k + l.length := by
  intro l
  induction l with
  | nil => intro k; simp [tempo_insert_idx]
  | cons x xs ih =>
    intro k
    cases x with
    | meter m =>
      rw [tempo_insert_idx]
      have := ih (k + 1)
      simp only [List.length_cons]
      omega
    | tempo u =>
      rw [tempo_insert_idx]
      split
      · simp only [List.length_cons]; omega
      · have := ih (k + 1)
        simp only [List.length_cons]
        omega

lemma countP_insertIdx_movable (p : Metric → Bool)
    (hpTmov : ∀ a : TempoSec, a.movable = true → p (.tempo a) = false)
    (l : Metrics) (idx : ℕ) (t : TempoSec) (hidx : idx ≤ l.length)
    (hmov : t.movable = true) :
    (l.insertIdx idx (.tempo t)).countP p = l.countP p := by
  rw [(List.perm_insertIdx _ _ hidx).countP_eq p, List.countP_cons, hpTmov t hmov]
  simp

lemma getElem?_insertIdx_self (l : Metrics) (idx : ℕ) (x : Metric)
    (hidx : idx ≤ l.length) : (l.insertIdx idx x)[idx]? = some x := by
  have hlt : idx < (l.insertIdx idx x).length := by
    rw [List.length_insertIdx _ _ hidx]
    omega
  rw [List.getElem?_eq_getElem hlt, List.getElem_insertIdx_self l x idx hidx]

lemma countP_solve_map_frame_tempo (p : Metric → Bool)
    (hpT : ∀ a b : TempoSec, a.movable = b.movable → p (.tempo a) = p (.tempo b))
    (sr : ℤ) (ms : Metrics) (sec : TempoSec) (si : Option ℕ) (f : ℤ)
    (hsi : ∀ i, si = some i → ∃ u : TempoSec, ms[i]? = some (.tempo u) ∧
      u.movable = sec.movable) :
    ∀ b r, solve_map_frame_tempo sr ms sec si f = some (b, r) →
      r.countP p = ms.countP p := by
  intro b r hr
  rw [solve_map_frame_tempo.eq_def] at hr
  split at hr
  · simp only [Option.some.injEq, Prod.mk.injEq] at hr
    rw [← hr.2]
  · have hms1 : (match si with
        | some i => ms.set i (.tempo {sec with active := true, frame := f})
        | none => ms).countP p = ms.countP p := by
      cases hsi2 : si with
      | none => rfl
      | some i =>
        rcases hsi i hsi2 with ⟨u, hu, hum⟩
        exact countP_set_same p ms i (Metric.tempo u) _ hu (hpT _ _ (by rw [hum]))
    dsimp only [] at hr
    split at hr
    · exact absurd hr (by simp)
    · rename_i ms5 hms5
      rcases Option.map_eq_some'.mp hr with ⟨bb, hbb, hpair⟩
      have hrr : r = ms5 := by
        have := congrArg Prod.snd hpair
        exact this.symm
      subst hrr
      rw [countP_recompute_tempi p hpT sr _ _ hms5, countP_sort_by_frame]
      split
      · split
        · split
          · rw [countP_set_same p _ _ _ _ (by assumption) (hpT _ _ (by rfl)),
              countP_solve_frame_pass p hpT sr _]
            exact hms1
          · split
            · split
              · rw [countP_set_same p _ _ _ _ (by assumption) (hpT _ _ (by rfl)),
                  countP_set_same p _ _ _ _ (by assumption) (hpT _ _ (by rfl)),
                  countP_solve_frame_pass p hpT sr _]
                exact hms1
              · rw [countP_set_same p _ _ _ _ (by assumption) (hpT _ _ (by rfl)),
                  countP_solve_frame_pass p hpT sr _]
                exact hms1
            · rw [countP_set_same p _ _ _ _ (by assumption) (hpT _ _ (by rfl)),
                countP_solve_frame_pass p hpT sr _]
        · rw [countP_solve_frame_pass p hpT sr _]
          exact hms1
      · rw [countP_solve_frame_pass p hpT sr _]
        exact hms1

lemma countP_solve_map_pulse_tempo (p : Metric → Bool)
    (hpT : ∀ a b : TempoSec, a.movable = b.movable → p (.tempo a) = p (.tempo b))
    (sr : ℤ) (ms : Metrics) (sec : TempoSec) (si : Option ℕ) (pu : ℝ)
    (hsi : ∀ i, si = some i → ∃ u : TempoSec, ms[i]? = some (.tempo u) ∧
      u.movable = sec.movable) :
    ∀ b r, solve_map_pulse_tempo sr ms sec si pu = some (b, r) →
      r.countP p = ms.countP p := by
  intro b r hr
  rw [solve_map_pulse_tempo.eq_def] at hr
  have hms1 : (match si with
      | some i => ms.set i (.tempo {sec with pulse := pu})
      | none => ms).countP p = ms.countP p := by
    cases hsi2 : si with
    | none => rfl
    | some i =>
      rcases hsi i hsi2 with ⟨u, hu, hum⟩
      exact countP_set_same p ms i (Metric.tempo u) _ hu (hpT _ _ (by rw [hum]))
  dsimp only [] at hr
  split at hr
  · exact absurd hr (by simp)
  · rename_i ms5 hms5
    rcases Option.map_eq_some'.mp hr with ⟨bb, hbb, hpair⟩
    have hrr : r = ms5 := by
      have := congrArg Prod.snd hpair
      exact this.symm
    subst hrr
    rw [countP_recompute_tempi p hpT sr _ _ hms5, countP_sort_by_pulse]
    split
    · split
      · split
        · split
          · rw [countP_set_same p _ _ _ _ (by assumption) (hpT _ _ (by rfl)),
              countP_set_same p _ _ _ _ (by assumption) (hpT _ _ (by rfl)),
              countP_solve_pulse_pass p hpT sr _]
            exact hms1
          · rw [countP_set_same p _ _ _ _ (by assumption) (hpT _ _ (by rfl)),
              countP_solve_pulse_pass p hpT sr _]
            exact hms1
        · rw [countP_set_same p _ _ _ _ (by assumption) (hpT _ _ (by rfl)),
            countP_solve_pulse_pass p hpT sr _]
      · rw [countP_solve_pulse_pass p hpT sr _]
        exact hms1
    · rw [countP_solve_pulse_pass p hpT sr _]
      exact hms1

lemma countP_recompute_meters (p : Metric → Bool)
    (hpT : ∀ a b : TempoSec, a.movable = b.movable → p (.tempo a) = p (.tempo b))
    (hpM : ∀ a b : MeterSec, a.movable = b.movable → p (.meter a) = p (.meter b))
    (sr : ℤ) (ms r : Metrics) (hr : recompute_meters sr ms = some r) :
    r.countP p = ms.countP p :=
  countP_recompute_meters_go p hpT hpM sr ms.length 0 ms none r hr

lemma countP_recompute_map (p : Metric → Bool)
    (hpT : ∀ a b : TempoSec, a.movable = b.movable → p (.tempo a) = p (.tempo b))
    (hpM : ∀ a b : MeterSec, a.movable = b.movable → p (.meter a) = p (.meter b))
    (sr : ℤ) (ms r : Metrics) (hr : recompute_map sr ms = some r) :
    r.countP p = ms.countP p := by
  rw [recompute_map] at hr
  rcases Option.bind_eq_some.mp hr with ⟨m1, hm1, hm2⟩
  exact (countP_recompute_meters p hpT hpM sr m1 r hm2).trans
    (countP_recompute_tempi p hpT sr ms m1 hm1)

lemma countP_remove_tempo_locked (p : Metric → Bool)
    (hpTmov : ∀ a : TempoSec, a.movable = true → p (.tempo a) = false) :
    ∀ (ms : Metrics) (f : ℤ),
      ((remove_tempo_locked ms f).2).countP p = ms.countP p := by
  intro ms
  induction ms with
  | nil => intro f; rfl
  | cons x xs ih =>
    intro f
    cases x with
    | meter m =>
      show (Metric.meter m :: (remove_tempo_locked xs f).2).countP p = _
      simp only [List.countP_cons, ih]
    | tempo t =>
      rw [remove_tempo_locked]
      split
      · rename_i hc
        simp [List.countP_cons, hpTmov t hc.2]
      · show (Metric.tempo t :: (remove_tempo_locked xs f).2).countP p = _
        simp only [List.countP_cons, ih]

lemma countP_erase_first_locked_tempo_at (p : Metric → Bool) (f : ℤ) :
    ∀ ms : Metrics,
      (∀ t : TempoSec, Metric.tempo t ∈ ms → t.lockedToMeter = true →
        p (.tempo t) = false) →
      (erase_first_locked_tempo_at f ms).countP p = ms.countP p := by
  intro ms
  induction ms with
  | nil => intro _; rfl
  | cons x xs ih =>
    intro h
    cases x with
    | meter m =>
      show (Metric.meter m :: erase_first_locked_tempo_at f xs).countP p = _
      simp only [List.countP_cons, ih (fun u hu => h u (List.mem_cons_of_mem _ hu))]
    | tempo t =>
      rw [erase_first_locked_tempo_at]
      split
      · rename_i hc
        simp [List.countP_cons, h t (List.mem_cons_self _ _) hc.1]
      · show (Metric.tempo t :: erase_first_locked_tempo_at f xs).countP p = _
        simp only [List.countP_cons, ih (fun u hu => h u (List.mem_cons_of_mem _ hu))]

lemma countP_remove_meter_second_loop (p : Metric → Bool)
    (hpMmov : ∀ a : MeterSec, a.movable = true → p (.meter a) = false) :
    ∀ (ms : Metrics) (f : ℤ),
      ((remove_meter_second_loop ms f).2).countP p = ms.countP p := by
  intro ms
  induction ms with
  | nil => intro f; rfl
  | cons x xs ih =>
    intro f
    cases x with
    | tempo t =>
      show (Metric.tempo t :: (remove_meter_second_loop xs f).2).countP p = _
      simp only [List.countP_cons, ih]
    | meter m =>
      rw [remove_meter_second_loop]
      split
      · rename_i hc
        simp [List.countP_cons, hpMmov m hc.2]
      · show (Metric.meter m :: (remove_meter_second_loop xs f).2).countP p = _
        simp only [List.countP_cons, ih]

lemma countP_remove_meter_locked (p : Metric → Bool)
    (hpMmov : ∀ a : MeterSec, a.movable = true → p (.meter a) = false)
    (ms : Metrics) (q : MeterSec)
    (hlk : ∀ t : TempoSec, Metric.tempo t ∈ ms → t.lockedToMeter = true →
      p (.tempo t) = false) :
    ((remove_meter_locked ms q).2).countP p = ms.countP p := by
  unfold remove_meter_locked
  dsimp only []
  split
  · rw [countP_remove_meter_second_loop p hpMmov,
      countP_erase_first_locked_tempo_at p q.frame ms hlk]
  · rw [countP_remove_meter_second_loop p hpMmov]

lemma countP_add_tempo_ins (p : Metric → Bool)
    (hpT : ∀ a b : TempoSec, a.movable = b.movable → p (.tempo a) = p (.tempo b))
    (hpTmov : ∀ a : TempoSec, a.movable = true → p (.tempo a) = false)
    (t : TempoSec) (ms : Metrics) (htm : t.movable = true) :
    ((add_tempo_ins t ms).1).countP p = ms.countP p := by
  unfold add_tempo_ins
  dsimp only []
  split
  · rw [countP_insertIdx_movable p hpTmov _ _ _
      (by simpa using tempo_insert_idx_le t (do_insert_tempo_replace t ms).1 0) htm]
    exact countP_do_insert_tempo_replace p hpT hpTmov t ms
  · exact countP_do_insert_tempo_replace p hpT hpTmov t ms

lemma add_tempo_ins_si (t : TempoSec) (ms : Metrics) :
    ∀ i, (add_tempo_ins t ms).2 = some i →
      ∃ u : TempoSec, (add_tempo_ins t ms).1[i]? = some (.tempo u) ∧
        u.movable = t.movable := by
  unfold add_tempo_ins
  dsimp only []
  split
  · intro i hi
    simp only [Option.some.injEq] at hi
    subst hi
    exact ⟨t, getElem?_insertIdx_self _ _ _
      (by simpa using tempo_insert_idx_le t (do_insert_tempo_replace t ms).1 0), rfl⟩
  · intro i hi
    exact absurd hi (by simp)

lemma countP_add_tempo_locked (p : Metric → Bool)
    (hpT : ∀ a b : TempoSec, a.movable = b.movable → p (.tempo a) = p (.tempo b))
    (hpM : ∀ a b : MeterSec, a.movable = b.movable → p (.meter a) = p (.meter b))
    (hpTmov : ∀ a : TempoSec, a.movable = true → p (.tempo a) = false)
    (sr : ℤ) (ms : Metrics) (bpm noteType pulse : ℝ) (frame : ℤ)
    (ttype : TType) (pls : LockStyle) (recompute lockedToMeter : Bool) :
    ∀ r, add_tempo_locked sr ms bpm noteType pulse frame ttype pls recompute
        lockedToMeter = some r →
      r.countP p = ms.countP p := by
  intro r hr
  unfold add_tempo_locked at hr
  dsimp only [] at hr
  have hins : ((add_tempo_ins
      ⟨pulse, frame, bpm, noteType, ttype, pls, true, true, lockedToMeter, 0⟩ ms).1).countP p
      = ms.countP p :=
    countP_add_tempo_ins p hpT hpTmov _ ms (by rfl)
  split at hr
  · simp only [Option.some.injEq] at hr
    subst hr
    exact hins
  · split at hr
    · exact absurd hr (by simp)
    · rename_i solved ms2 hsolve
      split at hr
      · exact absurd hr (by simp)
      · rename_i ms3 hms3
        have hms2 : ms2.countP p = ms.countP p := by
          split at hsolve
          · exact (countP_solve_map_frame_tempo p hpT sr _ _ _ _
              (add_tempo_ins_si _ ms) solved ms2 hsolve).trans hins
          · exact (countP_solve_map_pulse_tempo p hpT sr _ _ _ _
              (add_tempo_ins_si _ ms) solved ms2 hsolve).trans hins
        have hms3c : ms3.countP p = ms.countP p :=
          (countP_recompute_meters p hpT hpM sr ms2 ms3 hms3).trans hms2
        split at hr
        · simp only [Option.some.injEq] at hr
          subst hr
          exact hms3c
        · exact (countP_recompute_map p hpT hpM sr ms3 r hr).trans hms3c

lemma countP_replace_tempo (p : Metric → Bool)
    (hpT : ∀ a b : TempoSec, a.movable = b.movable → p (.tempo a) = p (.tempo b))
    (hpM : ∀ a b : MeterSec, a.movable = b.movable → p (.meter a) = p (.meter b))
    (hpTmov : ∀ a : TempoSec, a.movable = true → p (.tempo a) = false)
    (sr : ℤ) (ms : Metrics) (tsFrame : ℤ) (tsLockedToMeter : Bool)
    (bpm noteType pulse : ℝ) (frame : ℤ) (ttype : TType) (pls : LockStyle) :
    ∀ r, replace_tempo sr ms tsFrame tsLockedToMeter bpm noteType pulse frame
        ttype pls = some r →
      r.countP p = ms.countP p := by
  intro r hr
  unfold replace_tempo at hr
  split at hr
  · exact absurd hr (by simp)
  · split at hr
    · rename_i first hfi
      dsimp only [] at hr
      split at hr
      · exact (countP_add_tempo_locked p hpT hpM hpTmov sr _ bpm noteType pulse
          frame ttype pls true tsLockedToMeter r hr).trans
          (countP_remove_tempo_locked p hpTmov ms tsFrame)
      · exact (countP_recompute_map p hpT hpM sr _ r hr).trans
          (countP_set_same p ms _ (Metric.tempo first) _ hfi (hpT _ _ (by rfl)))
    · exact absurd hr (by simp)

lemma compute_c_func_pulse_ramp_eq (t : TempoSec) (endPpm endPulse : ℝ)
    (h0 : 0 < t.ppm) (h1 : 0 < endPpm) :
    t.compute_c_func_pulse endPpm endPulse = (endPpm - t.ppm) / (endPulse - t.pulse) := by
  unfold TempoSec.compute_c_func_pulse expm1
  rw [Real.exp_log (div_pos h1 h0)]
  have hne := h0.ne'
  field_simp

lemma c8_c :
    recompute_c 48000 ⟨0, 0, 60, 4, .Ramp, .AudioTime, false, true, false, 0⟩
      ⟨1, 0, 120, 4, .Ramp, .MusicTime, true, true, false, 0⟩ = 15 := by
  rw [recompute_c]
  rw [compute_c_func_pulse_ramp_eq _ _ _ (by norm_num [TempoSec.ppm]) (by norm_num [TempoSec.ppm])]
  norm_num [TempoSec.ppm]

lemma c8_frame2 :
    TempoSec.frame_at_tempo ⟨0, 0, 60, 4, .Ramp, .AudioTime, false, true, false, 15⟩
      (TempoSec.ppm ⟨1, 0, 120, 4, .Ramp, .MusicTime, true, true, false, 0⟩) 1 48000 = 133084 := by
  have hgt := Real.log_two_gt_d9
  have hlt := Real.log_two_lt_d9
  rw [TempoSec.frame_at_tempo, if_neg (by simp [TempoSec.constOrZero])]
  norm_num [TempoSec.time_at_pulse_tempo, TempoSec.minute_to_frame, TempoSec.ppm]
  rw [Int.floor_eq_iff]
  constructor
  · push_cast
    nlinarith
  · push_cast
    nlinarith

lemma nmtP_congr (a b : TempoSec) (h : a.movable = b.movable) :
    nmtP (.tempo a) = nmtP (.tempo b) := by
  simp [nmtP, h]

lemma nmtP_meter_congr (a b : MeterSec) (_h : a.movable = b.movable) :
    nmtP (.meter a) = nmtP (.meter b) := rfl

lemma nmtP_movable (a : TempoSec) (h : a.movable = true) :
    nmtP (.tempo a) = false := by
  simp [nmtP, h]

lemma nmtP_meter_movable (a : MeterSec) (_h : a.movable = true) :
    nmtP (.meter a) = false := rfl

lemma nmmP_tempo_congr (a b : TempoSec) (_h : a.movable = b.movable) :
    nmmP (.tempo a) = nmmP (.tempo b) := rfl

lemma nmmP_congr (a b : MeterSec) (h : a.movable = b.movable) :
    nmmP (.meter a) = nmmP (.meter b) := by
  simp [nmmP, h]

lemma nmmP_tempo_movable (a : TempoSec) (_h : a.movable = true) :
    nmmP (.tempo a) = false := rfl

lemma nmmP_movable (a : MeterSec) (h : a.movable = true) :
    nmmP (.meter a) = false := by
  simp [nmmP, h]

/-- `cex2_map` passes `check_solved`. -/
lemma cex2_solved : check_solved 48000 cex2_map = some true := by
  norm_num [check_solved, cex2_map, check_solved_go, tempo_section_at_frame_go,
    TempoSec.frame_at_tempo, TempoSec.frame_at_pulse, TempoSec.constOrZero,
    TempoSec.frames_per_pulse, TempoSec.ppm, truncR]

/-- The fitted `c` of the 60 bpm ramp followed by 120 bpm at pulse 1. -/
lemma c8_fitted_c : TempoSec.compute_c_func_pulse t60 30 1 = 15 := by
  rw [compute_c_func_pulse_ramp_eq t60 30 1 (by norm_num [TempoSec.ppm, t60]) (by norm_num)]
  norm_num [TempoSec.ppm, t60]

/-- The frame of pulse 1 through the fitted 60 bpm ramp. -/
lemma c8_frame_at_pulse_one : TempoSec.frame_at_pulse t60c15 1 48000 = 133084 := by
  have hgt := Real.log_two_gt_d9
  have hlt := Real.log_two_lt_d9
  rw [TempoSec.frame_at_pulse, if_neg (by simp [TempoSec.constOrZero, t60c15])]
  norm_num [t60c15, TempoSec.time_at_pulse, TempoSec.minute_to_frame, TempoSec.ppm,
    log1p, TempoSec.frame_to_minute]
  rw [Int.floor_eq_iff]
  constructor
  · push_cast
    nlinarith
  · push_cast
    nlinarith

/-- C1: failure atomicity fails for `remove_meter_locked` (code bug).  On
`msC1` — a map holding a meter-locked movable tempo at frame 4096 and no
movable meter there — removing the AudioTime meter value `qC1` (frame 4096)
is rejected (`false`), yet the meter-locked tempo has already been erased,
so the metrics list differs from the starting list: the mutator deletes
the companion tempo before it has located the meter at all. -/
theorem C1_remove_meter_rejects_but_mutates :
    (remove_meter_locked msC1 qC1).1 = false ∧
    (remove_meter_locked msC1 qC1).2 ≠ msC1 := by
  constructor
  · norm_num [remove_meter_locked, msC1, qC1, erase_first_locked_tempo_at,
      remove_meter_second_loop]
  · intro h
    have hlen := congrArg List.length h
    norm_num [remove_meter_locked, msC1, qC1, erase_first_locked_tempo_at,
      remove_meter_second_loop] at hlen

/-- C2 (counterexample): the roundtrip `frame_at_beat ∘ beat_at_frame` is
not the identity on every solved map: `cex2_map` passes `check_solved`,
`beat_at_frame (96000) = 4`, but `frame_at_beat (4) = 96001 ≠ 96000` (the
one-sample meter displacement `check_solved` tolerates breaks exactness). -/
theorem C2_roundtrip_counterexample :
    check_solved 48000 cex2_map = some true ∧
    beat_at_frame_locked 48000 cex2_map 96000 = some 4 ∧
    frame_at_beat_locked 48000 cex2_map 4 = some 96001 ∧
    (96001 : ℤ) ≠ 96000 := by
  refine ⟨cex2_solved, ?_, ?_, by norm_num⟩
  · norm_num [beat_at_frame_locked, cex2_map, tempo_section_at_frame_go,
      meters_around_frame_go, TempoSec.pulse_at_frame, TempoSec.constOrZero,
      TempoSec.frames_per_pulse, TempoSec.ppm]
  · norm_num [frame_at_beat_locked, cex2_map, meter_section_at_beat_go,
      frame_at_beat_tempo_go, TempoSec.frame_at_pulse, TempoSec.constOrZero,
      TempoSec.frames_per_pulse, TempoSec.ppm]

/-- C2 (amended): on a map holding one active tempo section and one meter
section (the shape of the fresh map), composing `beat_at_frame_locked`
with `frame_at_beat_locked` is the identity on frames, for any sample
rate, tempo value and meter value with nonzero rate and note divisor. -/
theorem C2_roundtrip_amended (t0 : TempoSec) (m0 : MeterSec) (sr f : ℤ) (b : ℝ)
    (hsr : (sr : ℝ) ≠ 0) (hppm : t0.ppm ≠ 0) (hnd : m0.noteDivisor ≠ 0)
    (hact : t0.active = true)
    (hb : beat_at_frame_locked sr [.tempo t0, .meter m0] f = some b) :
    frame_at_beat_locked sr [.tempo t0, .meter m0] b = some f := by
  simp only [beat_at_frame_locked, tempo_section_at_frame_go, meters_around_frame_go,
    hact, if_true, Option.some.injEq] at hb
  simp only [frame_at_beat_locked, meter_section_at_beat_go, frame_at_beat_tempo_go,
    Option.map_some, Option.some.injEq]
  have hp : (b - m0.beat) / m0.noteDivisor + m0.pulse = t0.pulse_at_frame f sr := by
    rw [← hb]
    field_simp
  rw [hp]
  simp only [Option.map_some', Option.some.injEq]
  exact frame_at_pulse_pulse_at_frame t0 f sr hsr hppm

/-- Witness for C2 (amended) at the test's 120 bpm / 4-4 map and frame 24000. -/
theorem C2_roundtrip_amended_witness :
    frame_at_beat_locked 48000 [.tempo ⟨0, 0, 120, 4, .Constant, .AudioTime,
      false, true, false, 0⟩, .meter ⟨0, 0, 0, ⟨1, 1, 0⟩, 4, 4, .AudioTime, false⟩]
      1 = some 24000 :=
  C2_roundtrip_amended _ _ 48000 24000 1 (by norm_num)
    (by norm_num [TempoSec.ppm]) (by norm_num) rfl
    (by norm_num [beat_at_frame_locked, tempo_section_at_frame_go,
      meters_around_frame_go, TempoSec.pulse_at_frame, TempoSec.constOrZero,
      TempoSec.frames_per_pulse, TempoSec.ppm])

/-- C3 (counterexample): `check_solved` is not equivalent to the claim's
conditions: `cex3_map` (one ramped tempo with `c = 2000`) is accepted, yet
the claim's "|c| ≤ 1000 for every ramped section" fails on it — the loop
only ever checks a section's `c` while it is the predecessor of a later
active tempo, so the last section's `c` is never examined. -/
theorem C3_check_solved_counterexample :
    check_solved 48000 cex3_map = some true ∧
    ¬ spec_solved_claim 48000 cex3_map := by
  constructor
  · norm_num [check_solved, cex3_map, check_solved_go]
  · intro h
    have := h.2.2.1 ⟨0, 0, 120, 4, .Ramp, .AudioTime, false, true, false, 2000⟩
      (by simp [cex3_map, active_tempos]) rfl
    norm_num at this

/-- C3 (amended): when `check_solved` returns a verdict, the verdict is
`true` iff every pair of adjacent active tempo sections is strictly
increasing in frame and pulse, agrees with the predecessor's ramp when not
meter-locked, has the predecessor's `|c| ≤ 1000` (ramped or not), and every
AudioTime meter other than the first lies within one sample above (and not
below frame 0) of the frame its pulse maps to through the covering tempo
section. -/
theorem C3_check_solved_amended (sr : ℤ) (ms : Metrics) (b : Bool)
    (hb : check_solved sr ms = some b) :
    b = true ↔ spec_solved_amended sr ms := by
  have h := check_solved_go_iff sr ms ms none none b hb
  rw [h]
  unfold spec_solved_amended
  simp [meters_checked]

/-- Witness for C3 (amended) at `cex2_map`. -/
theorem C3_check_solved_amended_witness :
    (true = true ↔ spec_solved_amended 48000 cex2_map) :=
  C3_check_solved_amended 48000 cex2_map true cex2_solved

/-- C4: the `singleTempoTest` scenario.  Building the test's map from the
fresh map by the two `replace` calls yields `c4_map`, and on it
`framepos_plus_beats (2·24000, 1) = 3·24000` and
`framepos_plus_beats (−24000, 4) = 3·24000`. -/
theorem C4_framepos_plus_beats_values :
    (replace_meter_first 48000 initial_metrics 4 4 0).bind
      (fun ms => replace_tempo 48000 ms 0 false 120 4 0 0 .Constant .AudioTime) =
      some c4_map ∧
    framepos_plus_beats 48000 c4_map 48000 1 = some 72000 ∧
    framepos_plus_beats 48000 c4_map (-24000) 4 = some 72000 := by
  refine ⟨?_, ?_, ?_⟩
  · norm_num [replace_meter_first, initial_metrics, first_meter_idx, first_tempo_idx,
      replace_tempo, c4_map, recompute_map, recompute_tempi, recompute_tempi_start,
      recompute_tempi_aux, recompute_meters, recompute_meters_go,
      recompute_meters_audio, recompute_meters_audio_vals,
      find_meter_locked_tempo_idx, List.set]
  · norm_num [framepos_plus_beats, c4_map, beat_at_frame_locked, frame_at_beat_locked,
      tempo_section_at_frame_go, meters_around_frame_go, meter_section_at_beat_go,
      frame_at_beat_tempo_go, TempoSec.pulse_at_frame, TempoSec.frame_at_pulse,
      TempoSec.constOrZero, TempoSec.frames_per_pulse, TempoSec.ppm, Option.bind]
  · norm_num [framepos_plus_beats, c4_map, beat_at_frame_locked, frame_at_beat_locked,
      tempo_section_at_frame_go, meters_around_frame_go, meter_section_at_beat_go,
      frame_at_beat_tempo_go, TempoSec.pulse_at_frame, TempoSec.frame_at_pulse,
      TempoSec.constOrZero, TempoSec.frames_per_pulse, TempoSec.ppm, Option.bind]

/-- C5: on any metrics list with an active tempo section, `recompute_tempi`
succeeds, and in its output a non-movable first active tempo section has
pulse 0 and the last active tempo section has `c = 0`. -/
theorem C5_recompute_tempi_endpoints (sr : ℤ) (ms : Metrics) (t : TempoSec)
    (ht : first_active_tempo ms = some t) :
    ∃ r, recompute_tempi sr ms = some r ∧
      (∀ u, first_active_tempo r = some u → u.movable = false → u.pulse = 0) ∧
      (∃ u, last_active_tempo r = some u ∧ u.cFunc = 0) := by
  obtain ⟨r, hr⟩ := recompute_tempi_start_isSome sr ms t ht
  exact ⟨r, hr, recompute_tempi_first_active sr ms r hr,
    recompute_tempi_last_active sr ms r hr⟩

/-- Witness for C5 at the fresh map. -/
theorem C5_recompute_tempi_endpoints_witness :
    ∃ r, recompute_tempi 48000 initial_metrics = some r ∧
      (∀ u, first_active_tempo r = some u → u.movable = false → u.pulse = 0) ∧
      (∃ u, last_active_tempo r = some u ∧ u.cFunc = 0) :=
  C5_recompute_tempi_endpoints 48000 initial_metrics
    ⟨0, 0, 120, 4, .Ramp, .AudioTime, false, true, false, 0⟩
    (by norm_num [first_active_tempo, initial_metrics])

/-- C6: `solve_map_frame` (tempo version) refuses to place a movable tempo
section at or before the first non-movable meter's frame: it returns
`false` and leaves the metrics list untouched. -/
theorem C6_solve_map_frame_refusal (sr : ℤ) (ms : Metrics) (sec : TempoSec)
    (si : Option ℕ) (f : ℤ) (hmov : sec.movable = true)
    (hf : f ≤ first_m_frame ms) :
    solve_map_frame_tempo sr ms sec si f = some (false, ms) := by
  rw [solve_map_frame_tempo.eq_def]
  rw [if_pos ⟨hmov, hf⟩]

/-- Witness for C6: moving a movable tempo to frame 0 on the fresh map. -/
theorem C6_solve_map_frame_refusal_witness :
    solve_map_frame_tempo 48000 initial_metrics
      ⟨1, 96000, 140, 4, .Constant, .AudioTime, true, true, false, 0⟩ none 0 =
      some (false, initial_metrics) :=
  C6_solve_map_frame_refusal 48000 initial_metrics
    ⟨1, 96000, 140, 4, .Constant, .AudioTime, true, true, false, 0⟩ none 0 rfl
    (by norm_num [first_m_frame, initial_metrics])

/-- C7 (counterexample): the invariant "exactly one non-movable tempo and
meter, both at frame 0 and pulse 0" is not preserved by every successful
mutation: the fresh map satisfies it, `replace_tempo` with caller frame 500
succeeds, and in the result the non-movable tempo sits at frame 500 — the
non-movable branch of `replace_tempo` overwrites the first section's frame
with the caller's frame. -/
theorem C7_invariant_counterexample :
    invariant_one initial_metrics ∧
    replace_tempo 48000 initial_metrics 0 false 140 4 0 500 .Constant .AudioTime =
      some c7cex_out ∧
    ¬ invariant_one c7cex_out := by
  refine ⟨⟨?_, ?_, ?_, ?_⟩, ?_, ?_⟩
  · norm_num [n_nonmovable_tempos, initial_metrics, nmtP, List.countP, List.countP.go]
  · norm_num [n_nonmovable_meters, initial_metrics, nmmP, List.countP, List.countP.go]
  · intro t ht
    simp only [initial_metrics, tempos_of] at ht
    simp at ht
    subst ht
    intro _
    exact ⟨rfl, rfl⟩
  · intro m hm
    simp only [initial_metrics, meters_of] at hm
    simp at hm
    subst hm
    intro _
    exact ⟨rfl, rfl⟩
  · norm_num [replace_tempo, initial_metrics, first_tempo_idx, c7cex_out,
      recompute_map, recompute_tempi, recompute_tempi_start, recompute_tempi_aux,
      recompute_meters, recompute_meters_go, recompute_meters_audio,
      recompute_meters_audio_vals, find_meter_locked_tempo_idx, List.set]
  · intro h
    have := h.2.2.1 ⟨0, 500, 140, 4, .Constant, .AudioTime, false, true, false, 0⟩
      (by simp [c7cex_out, tempos_of]) rfl
    norm_num at this

/-- C7 (amended): the cited mutators preserve the number of non-movable
tempo sections and the number of non-movable meter sections (so "exactly
one of each" is kept): `remove_tempo_locked` and `remove_meter_locked`
unconditionally in the meter count, `remove_meter_locked` in the tempo
count provided no non-movable tempo is meter-locked, and `replace_tempo`
whenever it produces a map. -/
theorem C7_nonmovable_counts_preserved (sr : ℤ) (ms : Metrics) (f : ℤ)
    (q : MeterSec) (tsFrame : ℤ) (tsLTM : Bool) (bpm noteType pulse : ℝ)
    (frame : ℤ) (ttype : TType) (pls : LockStyle) (r : Metrics)
    (hlk : ∀ t : TempoSec, Metric.tempo t ∈ ms → t.lockedToMeter = true →
      t.movable = true)
    (hrep : replace_tempo sr ms tsFrame tsLTM bpm noteType pulse frame ttype
      pls = some r) :
    n_nonmovable_tempos (remove_tempo_locked ms f).2 = n_nonmovable_tempos ms ∧
    n_nonmovable_meters (remove_tempo_locked ms f).2 = n_nonmovable_meters ms ∧
    n_nonmovable_tempos (remove_meter_locked ms q).2 = n_nonmovable_tempos ms ∧
    n_nonmovable_meters (remove_meter_locked ms q).2 = n_nonmovable_meters ms ∧
    n_nonmovable_tempos r = n_nonmovable_tempos ms ∧
    n_nonmovable_meters r = n_nonmovable_meters ms :=
  ⟨countP_remove_tempo_locked nmtP nmtP_movable ms f,
   countP_remove_tempo_locked nmmP nmmP_tempo_movable ms f,
   countP_remove_meter_locked nmtP nmtP_meter_movable ms q
     (fun t ht h => nmtP_movable t (hlk t ht h)),
   countP_remove_meter_locked nmmP nmmP_movable ms q (fun _t _ht _h => rfl),
   countP_replace_tempo nmtP nmtP_congr nmtP_meter_congr nmtP_movable sr ms
     tsFrame tsLTM bpm noteType pulse frame ttype pls r hrep,
   countP_replace_tempo nmmP nmmP_tempo_congr nmmP_congr nmmP_tempo_movable sr ms
     tsFrame tsLTM bpm noteType pulse frame ttype pls r hrep⟩

/-- Witness for C7 (amended) at the fresh map. -/
theorem C7_nonmovable_counts_preserved_witness :
    n_nonmovable_tempos (remove_tempo_locked initial_metrics 0).2 =
      n_nonmovable_tempos initial_metrics ∧
    n_nonmovable_meters (remove_tempo_locked initial_metrics 0).2 =
      n_nonmovable_meters initial_metrics ∧
    n_nonmovable_tempos (remove_meter_locked initial_metrics qC1).2 =
      n_nonmovable_tempos initial_metrics ∧
    n_nonmovable_meters (remove_meter_locked initial_metrics qC1).2 =
      n_nonmovable_meters initial_metrics ∧
    n_nonmovable_tempos c4_map = n_nonmovable_tempos initial_metrics ∧
    n_nonmovable_meters c4_map = n_nonmovable_meters initial_metrics :=
  C7_nonmovable_counts_preserved 48000 initial_metrics 0 qC1 0 false 120 4 0 0
    .Constant .AudioTime c4_map
    (by intro t ht h
        simp only [initial_metrics, List.mem_cons, List.not_mem_nil, or_false] at ht
        rcases ht with h1 | h1
        · injection h1 with h2
          subst h2
          exact absurd h (by norm_num)
        · exact absurd h1 (by simp))
    (by norm_num [replace_tempo, initial_metrics, first_tempo_idx, c4_map,
        recompute_map, recompute_tempi, recompute_tempi_start, recompute_tempi_aux,
        recompute_meters, recompute_meters_go, recompute_meters_audio,
        recompute_meters_audio_vals, find_meter_locked_tempo_idx, List.set])

/-- C8 (counterexample): the fitted constant is computed from rates in
pulses per minute, not beats per minute.  On `c8_map` (60 bpm ramp at
frame 0 followed by 120 bpm at pulse 1, note type 4, 48000 Hz) the fitted
`c` is 15, not 60, and the frame of pulse 1 is 133084, not ≈ 33271. -/
theorem C8_compute_c_counterexample :
    recompute_tempi 48000 c8_map =
      some [.tempo ⟨0, 0, 60, 4, .Ramp, .AudioTime, false, true, false, 15⟩,
            .tempo ⟨1, 133084, 120, 4, .Ramp, .MusicTime, true, true, false, 0⟩] ∧
    TempoSec.compute_c_func_pulse t60 30 1 = 15 ∧ (15 : ℝ) ≠ 60 ∧
    TempoSec.frame_at_pulse t60c15 1 48000 = 133084 ∧ (133084 : ℤ) ≠ 33271 := by
  refine ⟨?_, c8_fitted_c, by norm_num, c8_frame_at_pulse_one, by norm_num⟩
  rw [recompute_tempi, c8_map]
  rw [recompute_tempi_start]
  norm_num [recompute_tempi_aux, recompute_step, c8_c, c8_frame2]

/-- C8 (amended): `compute_c_func_pulse` fits
`c = ppm · expm1 (log (end_ppm / ppm)) / Δpulse = (end_ppm − ppm) / Δpulse`
with both rates in pulses per minute; for the 60 bpm ramp followed by
120 bpm at pulse 1 this gives `c = 15`, and the frame of pulse 1 at
48000 Hz is 133084 (`⌊log 2 / 15 · 60 · 48000 + 1/2⌋`). -/
theorem C8_compute_c_amended (t : TempoSec) (endPpm endPulse : ℝ)
    (h0 : 0 < t.ppm) (h1 : 0 < endPpm) :
    t.compute_c_func_pulse endPpm endPulse =
      (endPpm - t.ppm) / (endPulse - t.pulse) ∧
    TempoSec.compute_c_func_pulse t60 30 1 = 15 ∧
    TempoSec.frame_at_pulse t60c15 1 48000 = 133084 :=
  ⟨compute_c_func_pulse_ramp_eq t endPpm endPulse h0 h1, c8_fitted_c,
   c8_frame_at_pulse_one⟩

/-- Witness for C8 (amended) at the 60 bpm section. -/
theorem C8_compute_c_amended_witness :
    TempoSec.compute_c_func_pulse t60 30 1 =
      (30 - TempoSec.ppm t60) / (1 - t60.pulse) ∧
    TempoSec.compute_c_func_pulse t60 30 1 = 15 ∧
    TempoSec.frame_at_pulse t60c15 1 48000 = 133084 :=
  C8_compute_c_amended t60 30 1 (by norm_num [TempoSec.ppm, t60]) (by norm_num)

/-- C9: `quarter_note_at_frame` is four times `pulse_at_frame_locked`. -/
theorem C9_quarter_note_times_four (sr : ℤ) (ms : Metrics) (f : ℤ) (p : ℝ)
    (hp : pulse_at_frame_locked sr ms f = some p) :
    quarter_note_at_frame sr ms f = some (p * 4) := by
  rw [quarter_note_at_frame, hp, Option.map_some']

/-- Witness for C9 at the test map and frame 24000 (pulse 1/4). -/
theorem C9_quarter_note_times_four_witness :
    quarter_note_at_frame 48000 c4_map 24000 = some (1 / 4 * 4) :=
  C9_quarter_note_times_four 48000 c4_map 24000 (1 / 4)
    (by norm_num [pulse_at_frame_locked, c4_map, pulse_at_frame_go,
      TempoSec.pulse_at_frame, TempoSec.constOrZero, TempoSec.frames_per_pulse,
      TempoSec.ppm])

/-- C10: a negative frame argument makes `bbt_at_frame` return 1|1|0 for
every metrics list (the list is never consulted). -/
theorem C10_negative_frame_bbt (sr : ℤ) (ms : Metrics) (f : ℤ) (hf : f < 0) :
    bbt_at_frame sr ms f = some ⟨1, 1, 0⟩ := by
  rw [bbt_at_frame, if_pos hf]

/-- Witness for C10 at frame −5 on the empty metrics list. -/
theorem C10_negative_frame_bbt_witness :
    bbt_at_frame 48000 [] (-5) = some ⟨1, 1, 0⟩ :=
  C10_negative_frame_bbt 48000 [] (-5) (by norm_num)
